import Mathlib

/-!
Verification of the subscription/payment reconciliation core of the
skillswap backend: webhook handlers (payments and subscription routes),
the subscription lifecycle sweeps (expiry and auto-renewal), and the
wallet service.  Controllers and services are embedded as pure functions
over an explicit document store (`DB`): Mongoose documents become records
carrying the fields the handlers read and write, `findOne`/`findById`
become list lookups, and `save`/`findByIdAndUpdate` become functional
updates keyed on the document id (Mongo `_id` values and `txRef` values
are unique keys).  JavaScript `Date` month/year arithmetic (`setMonth`,
`setFullYear`, `setDate`) is embedded at day granularity, including its
day-overflow normalization (e.g. Jan 31 plus one month rolls over to
Mar 2, it is not clamped to the end of February).
-/

namespace SkillSwap

/-- Subscription status strings stored on a user document.  The schema
enum lists active/inactive/cancelled/past_due/unpaid; the expiry sweep
additionally writes the string `expired` through `findByIdAndUpdate`
(which does not run enum validators), so it is included here. -/
inductive SubStatus
  | inactive
  | active
  | past_due
  | cancelled
  | expired
  | unpaid
deriving DecidableEq, Repr

/-- Transaction status strings. -/
inductive TxStatus
  | pending
  | successful
  | failed
  | cancelled
deriving DecidableEq, Repr

/-- Transaction types that appear in the webhook and wallet handlers. -/
inductive TxType
  | topup
  | deduction
  | earnings
  | refund
  | withdrawal
  | subscription
  | course_enrollment
deriving DecidableEq, Repr

/-- Plan durations handled by the subscription service switch. -/
inductive Duration
  | monthly
  | yearly
  | quarterly
deriving DecidableEq, Repr

/-- A calendar date as held by a JavaScript `Date`, at day granularity:
`month` is the JS 0-based month index (0 = January), `day` is 1-based. -/
structure JSDate where
  year : Int
  month : Nat
  day : Nat
deriving DecidableEq, Repr

/-- Gregorian leap-year rule, as implemented by JS `Date`. -/
def isLeapYear (y : Int) : Bool :=
  (y % 4 == 0 && y % 100 != 0) || y % 400 == 0

/-- Number of days of month index `m` (0-based) in year `y`. -/
def daysInMonth (y : Int) (m : Nat) : Nat :=
  if m = 1 then (if isLeapYear y then 29 else 28)
  else if m = 3 ∨ m = 5 ∨ m = 8 ∨ m = 10 then 30
  else 31

/-- One step of the JS `Date` field normalization: a day count that
exceeds the length of the current month rolls into the following month.
All dates built below start from a valid day (at most 31) so the excess
is at most 3 days and a single carry step is exact. -/
def normalizeDay (d : JSDate) : JSDate :=
  if d.day > daysInMonth d.year d.month then
    let m := d.month + 1
    { year := d.year + Int.ofNat (m / 12), month := m % 12,
      day := d.day - daysInMonth d.year d.month }
  else d

/-- JS `date.setMonth(date.getMonth() + k)`: the month index is advanced
with year carry, the day-of-month is kept and then normalized (overflow
rolls into the next month; JS does not clamp to the end of the month). -/
def jsSetMonthAdd (d : JSDate) (k : Nat) : JSDate :=
  let m := d.month + k
  normalizeDay { year := d.year + Int.ofNat (m / 12), month := m % 12, day := d.day }

/-- JS `date.setFullYear(date.getFullYear() + k)` (Feb 29 in a non-leap
target year rolls over to Mar 1). -/
def jsSetFullYearAdd (d : JSDate) (k : Nat) : JSDate :=
  normalizeDay { year := d.year + Int.ofNat k, month := d.month, day := d.day }

/-- JS `date.setDate(date.getDate() + k)` for the small `k` used by the
sweeps (lookahead windows of a few days). -/
def jsSetDateAdd (d : JSDate) (k : Nat) : JSDate :=
  normalizeDay { year := d.year, month := d.month, day := d.day + k }

/-- Injective order-preserving key for normalized dates (month at most
11, day at most 31), used to embed Mongo date comparisons. -/
def JSDate.key (d : JSDate) : Int :=
  d.year * 372 + Int.ofNat (d.month * 31 + d.day)

/-- Wallet subdocument of a user. -/
structure Wallet where
  balance : Int
  totalEarnings : Int
  totalSpent : Int
deriving DecidableEq, Repr

/-- Subscription plan document (the fields the handlers read). -/
structure Plan where
  id : Nat
  name : String
  price : Int
  currency : String
  duration : Duration
  isActive : Bool
deriving DecidableEq, Repr

/-- Transaction document. -/
structure Txn where
  userId : Nat
  txType : TxType
  amount : Int
  currency : String
  txRef : String
  status : TxStatus
  descr : String
  courseId : Option Nat
  subscriptionPlanId : Option Nat
  planDuration : Option Duration
  flutterwaveId : Option String
  flutterwaveRef : Option String
  failureReason : Option String
  paidAt : Option JSDate
deriving DecidableEq, Repr

/-- User document: the subscription and wallet fields that the
controllers and services read and write.  The payments webhook and the
lifecycle service use `subscriptionStartDate`/`subscriptionEndDate`,
while the subscription controller uses
`subscriptionStartedAt`/`subscriptionExpiresAt`; both families are kept
as distinct fields, exactly as the code addresses them.
`hasPaymentMethod` stands for a non-empty `paymentMethods` array. -/
structure User where
  id : Nat
  isPro : Bool
  subscriptionStatus : SubStatus
  subscriptionPlan : Option Nat
  subscriptionStartDate : Option JSDate
  subscriptionEndDate : Option JSDate
  subscriptionStartedAt : Option JSDate
  subscriptionExpiresAt : Option JSDate
  autoRenewal : Bool
  hasPaymentMethod : Bool
  lastPaymentReference : Option String
  lastPaymentAmount : Option Int
  lastPaymentDate : Option JSDate
  pendingSubscriptionTransaction : Option String
  pendingSubscriptionPlan : Option Nat
  enrolledCourses : List Nat
  wallet : Wallet
deriving DecidableEq, Repr

/-- The document store: the User and Transaction collections. -/
structure DB where
  users : List User
  txns : List Txn
deriving DecidableEq, Repr

/-- Embeds `User.findById`. -/
def findUser (db : DB) (uid : Nat) : Option User :=
  db.users.find? (fun u => u.id == uid)

/-- Embeds `Transaction.findOne` keyed on the transaction reference. -/
def findTxnByRef (db : DB) (ref : String) : Option Txn :=
  db.txns.find? (fun t => t.txRef == ref)

/-- Embeds `Transaction.findOne` keyed on reference and user (used by verifyPayment). -/
def findUserTxn (db : DB) (ref : String) (uid : Nat) : Option Txn :=
  db.txns.find? (fun t => t.txRef == ref && t.userId == uid)

/-- Embeds `SubscriptionPlan.findById`. -/
def findPlan (plans : List Plan) (pid : Nat) : Option Plan :=
  plans.find? (fun p => p.id == pid)

/-- Write back a user document (`user.save()` / `findByIdAndUpdate`):
the document with the given `_id` is replaced by `f` applied to it. -/
def updateUser (db : DB) (uid : Nat) (f : User → User) : DB :=
  { db with users := db.users.map (fun u => if u.id == uid then f u else u) }

/-- Write back a transaction document, keyed on its unique `txRef`. -/
def updateTxnByRef (db : DB) (ref : String) (f : Txn → Txn) : DB :=
  { db with txns := db.txns.map (fun t => if t.txRef == ref then f t else t) }

/-! Payments webhook (Flutterwave route): signature check, retry with
exponential backoff, and `processSuccessfulPayment`. -/

/-- Webhook configuration constants from the payments controller. -/
def MAX_RETRIES : Nat := 3

/-- Base retry delay in milliseconds. -/
def BASE_DELAY : Nat := 1000

/-- The `data` object of a Flutterwave `charge.completed` event as read
by the payments webhook handler. -/
structure ChargeData where
  txRef : String
  flwId : String
  amount : Int
  currency : String
  status : String
  narration : Option String
deriving DecidableEq, Repr

/-- The inbound payments-webhook request: the `verif-hash` header (if
present) and the parsed payload. -/
structure FlwRequest where
  signature : Option String
  event : String
  data : ChargeData
deriving DecidableEq, Repr

/-- Embeds `verifyFlutterwaveSignature`: direct comparison of the `verif-hash`
header with the configured secret; an unconfigured secret always fails. -/
def verifyFlutterwaveSignature (secret : Option String) (sig : String) : Bool :=
  match secret with
  | none => false
  | some s => sig == s

/-- Mapping of a provider status string into the Transaction status enum
(the failed-payment branch assigns the provider string to the enum
field; a string outside the enum fails schema validation on save). -/
def parseTxStatus (s : String) : Option TxStatus :=
  if s == "pending" then some TxStatus.pending
  else if s == "successful" then some TxStatus.successful
  else if s == "failed" then some TxStatus.failed
  else if s == "cancelled" then some TxStatus.cancelled
  else none

/-- The `transaction.save()` of a confirmed payment: status successful,
provider id and completion timestamp recorded. -/
def paidTxnUpd (now : JSDate) (d : ChargeData) (t : Txn) : Txn :=
  { t with status := TxStatus.successful, flutterwaveId := some d.flwId,
           paidAt := some now }

/-- The user update of the payments-webhook subscription branch:
activate Pro status with an end date computed from `now` and the stored
plan duration. -/
def activateProUser (now endDate : JSDate) (pid : Nat) (u : User) : User :=
  { u with isPro := true, subscriptionPlan := some pid,
           subscriptionStatus := SubStatus.active,
           subscriptionStartDate := some now,
           subscriptionEndDate := some endDate }

/-- The user update of the course-enrollment branch. -/
def enrollCourse (cid : Nat) (u : User) : User :=
  { u with enrolledCourses := u.enrolledCourses ++ [cid] }

/-- Embeds `processSuccessfulPayment`: look up the Transaction by `tx_ref`,
skip if already successful, cross-check amount and currency, mark the
transaction successful, then apply the type-specific user update.
Returns the resulting store and the thrown error message, if any
(mutations performed before a throw are kept, as in the source, where
`transaction.save()` precedes the user lookup). -/
def processSuccessfulPayment (now : JSDate) (db : DB) (d : ChargeData) :
    DB × Option String :=
  match findTxnByRef db d.txRef with
  | none => (db, some "Transaction not found")
  | some txn =>
    if txn.status = TxStatus.successful then (db, none)
    else if txn.amount ≠ d.amount ∨ txn.currency ≠ d.currency then
      (db, some "Payment amount/currency mismatch")
    else
      let db1 := updateTxnByRef db d.txRef (paidTxnUpd now d)
      match findUser db1 txn.userId with
      | none => (db1, some "User not found")
      | some user =>
        match txn.txType with
        | TxType.course_enrollment =>
          match txn.courseId with
          | some cid =>
            if cid ∈ user.enrolledCourses then (db1, none)
            else (updateUser db1 user.id (enrollCourse cid), none)
          | none => (db1, none)
        | TxType.subscription =>
          match txn.subscriptionPlanId with
          | some pid =>
            let endDate := if txn.planDuration = some Duration.yearly
              then jsSetFullYearAdd now 1 else jsSetMonthAdd now 1
            (updateUser db1 user.id (activateProUser now endDate pid), none)
          | none => (db1, none)
        | _ => (db1, none)

/-- Embeds `retryWithExponentialBackoff`, unrolled on the remaining retry
budget `gas` (the source guard `retries < MAX_RETRIES` is `gas > 0` for
`gas = MAX_RETRIES - retries`).  Returns the final store, the final
error (if all attempts failed) and the list of delays slept, each delay
being `BASE_DELAY * 2 ^ retries` for the attempt it precedes. -/
def retryGo (act : DB → DB × Option String) : Nat → Nat → DB →
    DB × Option String × List Nat
  | retries, gas, db =>
    match act db with
    | (db1, none) => (db1, none, [])
    | (db1, some e) =>
      match gas with
      | 0 => (db1, some e, [])
      | Nat.succ g =>
        let r := retryGo act (retries + 1) g db1
        (r.1, r.2.1, (BASE_DELAY * 2 ^ retries) :: r.2.2)

/-- The payments webhook handler: verify the `verif-hash` signature
(401 on mismatch), process `charge.completed` events (successful
payments through the retry loop, other statuses by recording the
failure on the transaction), acknowledge everything else with 200, and
answer 500 when processing ultimately failed. -/
def handleFlutterwaveWebhook (secret : Option String) (now : JSDate)
    (db : DB) (req : FlwRequest) : DB × Nat :=
  match req.signature with
  | none => (db, 401)
  | some sig =>
    if verifyFlutterwaveSignature secret sig = false then (db, 401)
    else if req.event == "charge.completed" then
      if req.data.status == "successful" then
        let r := retryGo (fun s => processSuccessfulPayment now s req.data) 0 MAX_RETRIES db
        match r.2.1 with
        | none => (r.1, 200)
        | some _ => (r.1, 500)
      else
        match findTxnByRef db req.data.txRef with
        | none => (db, 200)
        | some _ =>
          match parseTxStatus req.data.status with
          | some st =>
            (updateTxnByRef db req.data.txRef (fun t =>
              { t with status := st,
                       failureReason := some (req.data.narration.getD "Payment failed") }), 200)
          | none => (db, 500)
    else (db, 200)

/-- Iterated replay of a state transformer (delivering the same webhook
payload `n` times in a row). -/
def iterState (f : DB → DB) (db : DB) : Nat → DB
  | 0 => db
  | Nat.succ n => f (iterState f db n)

/-! Subscription controller: webhook route, charge handling,
client-driven verification and cancellation. -/

/-- Metadata carried in the subscription webhook payload (`meta.userId`
and `meta.planId`; `none` models a missing or falsy value). -/
structure SubChargeMeta where
  userId : Option Nat
  planId : Option Nat
deriving DecidableEq, Repr

/-- The `data` object of a subscription-route `charge.completed`
event. -/
structure SubChargeData where
  txRef : String
  status : String
  amount : Int
  currency : String
  meta : SubChargeMeta
deriving DecidableEq, Repr

/-- Inbound subscription-webhook request.  The signature header is kept
as its decoded byte string, since the handler compares byte buffers. -/
structure SubWebhookRequest where
  signature : Option (List Nat)
  event : String
  data : SubChargeData
deriving DecidableEq, Repr

/-- Embeds `verifyWebhookSignature` of the subscription controller: an
HMAC-SHA256 digest of the serialized payload is compared to the header
with `crypto.timingSafeEqual`.  The digest bytes are taken as the
parameter `expected` (the hash itself is an external crypto primitive);
`timingSafeEqual` on equal-length buffers is byte equality, a length
mismatch throws and is caught as a failed verification, and a missing
header becomes the empty buffer and thus also fails. -/
def verifyWebhookSignature (expected : List Nat) (sig : Option (List Nat)) : Bool :=
  match sig with
  | none => false
  | some s => s == expected

/-- The user update performed by the subscription controller when it
confirms a charge: activate, stamp payment bookkeeping, clear the
pending markers.  Note it writes `subscriptionExpiresAt`, not
`subscriptionEndDate`. -/
def subControllerActivate (now expiry : JSDate) (pid : Nat)
    (amount : Int) (ref : Option String) (u : User) : User :=
  { u with isPro := true, subscriptionPlan := some pid,
           subscriptionStartedAt := some now,
           subscriptionExpiresAt := some expiry,
           subscriptionStatus := SubStatus.active,
           lastPaymentAmount := some amount,
           lastPaymentDate := some now,
           lastPaymentReference := ref,
           pendingSubscriptionTransaction := none,
           pendingSubscriptionPlan := none }

/-- Expiry-date switch shared by the subscription controller paths:
monthly and yearly advance from `now`; any other duration leaves the
fresh copy of `now` unchanged. -/
def controllerExpiry (now : JSDate) (dur : Duration) : JSDate :=
  match dur with
  | Duration.monthly => jsSetMonthAdd now 1
  | Duration.yearly => jsSetFullYearAdd now 1
  | Duration.quarterly => now

/-- Embeds `handleChargeCompleted` of the subscription controller: activates
the subscription named by the webhook metadata.  Idempotency is keyed
on `user.lastPaymentReference`; no stored Transaction is consulted and
no amount/currency cross-check is performed. -/
def handleChargeCompleted (now : JSDate) (plans : List Plan) (db : DB)
    (d : SubChargeData) : DB :=
  if d.status ≠ "successful" then db
  else match d.meta.userId, d.meta.planId with
  | some uid, some pid =>
    (match findUser db uid with
    | none => db
    | some user =>
      if user.lastPaymentReference == some d.txRef then db
      else match findPlan plans pid with
      | none => db
      | some plan =>
        updateUser db uid
          (subControllerActivate now (controllerExpiry now plan.duration) pid
            d.amount (some d.txRef)))
  | _, _ => db

/-- The subscription webhook route: signature check (401 on failure),
then `charge.completed` dispatch; every other event type, and the
handler itself, acknowledge with 200. -/
def handleSubscriptionWebhook (expected : List Nat) (now : JSDate)
    (plans : List Plan) (db : DB) (req : SubWebhookRequest) : DB × Nat :=
  if verifyWebhookSignature expected req.signature = false then (db, 401)
  else if req.event == "charge.completed" then
    (handleChargeCompleted now plans db req.data, 200)
  else (db, 200)

/-- Embeds `cancelSubscription`: requires an existing user with `isPro` and a
set `subscriptionExpiresAt`; marks the status cancelled and leaves
everything else (including `isPro`) unchanged. -/
def cancelSubscription (db : DB) (uid : Nat) : DB × Nat :=
  match findUser db uid with
  | none => (db, 404)
  | some user =>
    if user.isPro = false ∨ user.subscriptionExpiresAt = none then (db, 400)
    else
      (updateUser db uid (fun u =>
        { u with subscriptionStatus := SubStatus.cancelled }), 200)

/-- Embeds `verifySubscription` (client-driven verification): validates the
pending transaction reference, resolves the pending plan, and activates
the subscription.  The gateway verification in the source is a mock
that always reports a successful payment of amount 2999. -/
def verifySubscription (now : JSDate) (plans : List Plan) (db : DB)
    (uid : Nat) (tRef tId : Option String) : DB × Nat :=
  if tRef = none ∧ tId = none then (db, 400)
  else match findUser db uid with
  | none => (db, 404)
  | some user =>
    if tRef ≠ none ∧ user.pendingSubscriptionTransaction ≠ tRef then (db, 400)
    else
      match user.pendingSubscriptionPlan.bind (findPlan plans) with
      | none => (db, 500)
      | some plan =>
        (updateUser db uid
          (subControllerActivate now (controllerExpiry now plan.duration) plan.id
            2999 tRef), 200)

/-! Subscription lifecycle service: expiry sweep and auto-renewal
sweep. -/

/-- The expiry-sweep query: Pro users with status active or past_due
whose `subscriptionEndDate` is strictly before `now` (a document
without the field does not match the range query). -/
def subExpired (now : JSDate) (u : User) : Bool :=
  u.isPro
    && (u.subscriptionStatus == SubStatus.active
        || u.subscriptionStatus == SubStatus.past_due)
    && (match u.subscriptionEndDate with
        | some e => decide (e.key < now.key)
        | none => false)

/-- Embeds `expireSubscription`: clear `isPro`, set status expired, and stamp
`subscriptionEndDate` with the sweep time. -/
def expireApply (now : JSDate) (u : User) : User :=
  { u with isPro := false, subscriptionStatus := SubStatus.expired,
           subscriptionEndDate := some now }

/-- Embeds `checkExpiredSubscriptions`: query the matching users once, then
expire each of them by id. -/
def checkExpiredSubscriptions (now : JSDate) (db : DB) : DB :=
  (db.users.filter (subExpired now)).foldl
    (fun s u => updateUser s u.id (fun v => expireApply now v)) db

/-- The renewal-sweep query: Pro, active, auto-renewal enabled, end
date within the next three days. -/
def renewalCandidate (now : JSDate) (u : User) : Bool :=
  u.isPro && u.subscriptionStatus == SubStatus.active
    && (match u.subscriptionEndDate with
        | some e => decide (e.key ≤ (jsSetDateAdd now 3).key)
        | none => false)
    && u.autoRenewal

/-- Plan-duration date arithmetic of `extendSubscription`. -/
def jsAddDuration (dur : Duration) (d : JSDate) : JSDate :=
  match dur with
  | Duration.monthly => jsSetMonthAdd d 1
  | Duration.yearly => jsSetFullYearAdd d 1
  | Duration.quarterly => jsSetMonthAdd d 3

/-- Outcome of one renewal attempt for one user. -/
inductive RenewOutcome
  | pastDue
  | extended (newEnd : Option JSDate)
deriving DecidableEq, Repr

/-- Embeds the decision part of `attemptAutoRenewal`: a missing or unresolvable plan
(which throws on the first field access and is caught), a missing
payment method, a missing or zero plan price, a gateway exception
(caught inside `processPayment`) and a declined charge all lead to
past_due; only a successful charge extends.  `gw` is the payment
gateway: `Except.error` models a thrown exception, `Except.ok b` a
response with success flag `b`. -/
def attemptOutcome (plans : List Plan) (gw : Nat → Except String Bool)
    (u : User) : RenewOutcome :=
  match u.subscriptionPlan.bind (findPlan plans) with
  | none => RenewOutcome.pastDue
  | some plan =>
    if u.hasPaymentMethod = false then RenewOutcome.pastDue
    else if plan.price ≤ 0 then RenewOutcome.pastDue
    else match gw u.id with
      | Except.error _ => RenewOutcome.pastDue
      | Except.ok false => RenewOutcome.pastDue
      | Except.ok true =>
        RenewOutcome.extended (u.subscriptionEndDate.map (jsAddDuration plan.duration))

/-- Apply a renewal outcome to the stored user document:
`markSubscriptionAsPastDue` sets only the status;
`extendSubscription` stores the new end date (computed from the queried
snapshot) and resets the status to active. -/
def applyOutcome (o : RenewOutcome) (v : User) : User :=
  match o with
  | RenewOutcome.pastDue => { v with subscriptionStatus := SubStatus.past_due }
  | RenewOutcome.extended e =>
    { v with subscriptionEndDate := e, subscriptionStatus := SubStatus.active }

/-- Embeds `processAutoRenewals`: query the candidates once, then attempt each
renewal in turn; every attempt is fully handled (its internal catch
marks the user past_due), so the sweep itself is a total function. -/
def processAutoRenewals (now : JSDate) (plans : List Plan)
    (gw : Nat → Except String Bool) (db : DB) : DB :=
  (db.users.filter (renewalCandidate now)).foldl
    (fun s u => updateUser s u.id (applyOutcome (attemptOutcome plans gw u))) db

/-- The pointwise effect of one renewal sweep on one user: candidates
receive their attempt outcome, everyone else is untouched. -/
def renewStep (now : JSDate) (plans : List Plan) (gw : Nat → Except String Bool)
    (v : User) : User :=
  if renewalCandidate now v then applyOutcome (attemptOutcome plans gw v) v else v

/-- Embeds `markSubscriptionAsPastDue` as a standalone operation. -/
def markSubscriptionAsPastDue (db : DB) (uid : Nat) : DB :=
  updateUser db uid (fun u => { u with subscriptionStatus := SubStatus.past_due })

/-- Embeds `extendSubscription` at the level of a single user document: the
new end date is the previous `subscriptionEndDate` advanced by one
plan-duration unit of JS date arithmetic, and the status returns to
active. -/
def extendSubscriptionUser (u : User) (plan : Plan) : User :=
  { u with subscriptionEndDate := u.subscriptionEndDate.map (jsAddDuration plan.duration),
           subscriptionStatus := SubStatus.active }

/-! Wallet controller. -/

/-- Debit: decrement `balance`, increment `totalSpent`. -/
def debitWallet (amount : Int) (u : User) : User :=
  { u with wallet := { u.wallet with
      balance := u.wallet.balance - amount,
      totalSpent := u.wallet.totalSpent + amount } }

/-- Credit: increment `balance` and `totalEarnings`. -/
def creditWallet (amount : Int) (u : User) : User :=
  { u with wallet := { u.wallet with
      balance := u.wallet.balance + amount,
      totalEarnings := u.wallet.totalEarnings + amount } }

/-- Response of `deductTokens` (the JSON fields that matter: the
insufficient-balance rejection carries `currentBalance` and
`requiredAmount`). -/
inductive DeductResp
  | notFound
  | invalidAmount
  | insufficient (currentBalance requiredAmount : Int)
  | ok (newBalance : Int)
deriving DecidableEq, Repr

/-- The successful deduction Transaction recorded by `deductTokens`. -/
def deductTxnRec (u : User) (amount : Int) (ref ds : String) : Txn :=
  { userId := u.id, txType := TxType.deduction,
    amount := amount, currency := "NGN", txRef := ref,
    status := TxStatus.successful, descr := ds, courseId := none,
    subscriptionPlanId := none, planDuration := none,
    flutterwaveId := none, flutterwaveRef := none,
    failureReason := none, paidAt := none }

/-- Embeds `deductTokens`: reject a non-positive amount, reject when the
balance is insufficient (reporting both amounts), otherwise record a
successful deduction transaction and debit the wallet. -/
def deductTokens (db : DB) (uid : Nat) (amount : Int) (ref : String)
    (ds : String) : DB × DeductResp :=
  match findUser db uid with
  | none => (db, DeductResp.notFound)
  | some user =>
    if amount ≤ 0 then (db, DeductResp.invalidAmount)
    else if user.wallet.balance < amount then
      (db, DeductResp.insufficient user.wallet.balance amount)
    else
      let db1 : DB := { db with txns := deductTxnRec user amount ref ds :: db.txns }
      (updateUser db1 uid (debitWallet amount),
       DeductResp.ok (user.wallet.balance - amount))

/-- A sequence of `deductTokens` calls (user id, amount, reference,
description), applied in order. -/
def runDeducts (db : DB) (reqs : List (Nat × Int × String × String)) : DB :=
  reqs.foldl (fun s r => (deductTokens s r.1 r.2.1 r.2.2.1 r.2.2.2).1) db

/-- Embeds `verifyPayment` of the wallet controller: look up the transaction of the user
 by reference; if already successful answer 200 without
changes; otherwise, on a successful gateway verification (`flwOk`),
mark the transaction successful and credit both `balance` and
`totalEarnings` with the stored transaction amount; on a failed
verification mark the transaction failed. -/
def verifyPayment (db : DB) (uid : Nat) (ref : String) (flwOk : Bool)
    (flwId : Option String) : DB × Nat :=
  match findUser db uid with
  | none => (db, 404)
  | some _user =>
    match findUserTxn db ref uid with
    | none => (db, 404)
    | some txn =>
      if txn.status = TxStatus.successful then (db, 200)
      else if flwOk then
        let db1 := updateTxnByRef db ref (fun t =>
          { t with status := TxStatus.successful, flutterwaveRef := flwId })
        (updateUser db1 uid (creditWallet txn.amount), 200)
      else
        (updateTxnByRef db ref (fun t => { t with status := TxStatus.failed }), 400)

/-- Embeds `addTokensToWallet` (internal credit path): credit `balance` and
`totalEarnings` by the given amount and mark the transaction with the
given reference successful; returns the new balance (`none` models the
thrown error for a missing user). -/
def addTokensToWallet (db : DB) (uid : Nat) (amount : Int) (ref : String) :
    DB × Option Int :=
  match findUser db uid with
  | none => (db, none)
  | some user =>
    let db1 := updateUser db uid (creditWallet amount)
    let db2 := updateTxnByRef db1 ref (fun t => { t with status := TxStatus.successful })
    (db2, some (user.wallet.balance + amount))

/-! The subscription-state invariant and concrete fixtures used for
witnesses and counterexamples. -/

/-- The invariant actually maintained by the subscription core: a Pro
user always carries an end/expiry timestamp (the payments path stores
it in `subscriptionEndDate`, the subscription-controller path in
`subscriptionExpiresAt`) and a status among active, past_due and
cancelled (cancellation keeps `isPro` set until the period ends). -/
def subInvariant (u : User) : Prop :=
  u.isPro = true →
    ((u.subscriptionEndDate ≠ none ∨ u.subscriptionExpiresAt ≠ none)
      ∧ (u.subscriptionStatus = SubStatus.active
          ∨ u.subscriptionStatus = SubStatus.past_due
          ∨ u.subscriptionStatus = SubStatus.cancelled))

instance (u : User) : Decidable (subInvariant u) := by
  unfold subInvariant; infer_instance

/-- Fixture: an empty wallet. -/
def baseWallet : Wallet := { balance := 0, totalEarnings := 0, totalSpent := 0 }

/-- Fixture: a fresh free-tier user. -/
def baseUser : User :=
  { id := 1, isPro := false, subscriptionStatus := SubStatus.inactive,
    subscriptionPlan := none, subscriptionStartDate := none,
    subscriptionEndDate := none, subscriptionStartedAt := none,
    subscriptionExpiresAt := none, autoRenewal := false,
    hasPaymentMethod := false, lastPaymentReference := none,
    lastPaymentAmount := none, lastPaymentDate := none,
    pendingSubscriptionTransaction := none, pendingSubscriptionPlan := none,
    enrolledCourses := [], wallet := baseWallet }

/-- Fixture: a pending subscription transaction of 2500 NGN. -/
def baseTxn : Txn :=
  { userId := 1, txType := TxType.subscription, amount := 2500,
    currency := "NGN", txRef := "SUB_1", status := TxStatus.pending,
    descr := "sub", courseId := none, subscriptionPlanId := some 7,
    planDuration := some Duration.monthly, flutterwaveId := none,
    flutterwaveRef := none, failureReason := none, paidAt := none }

/-- Fixture: a reference instant, 2024-01-15. -/
def now0 : JSDate := { year := 2024, month := 0, day := 15 }

/-- Fixture: a monthly plan priced 2500 NGN. -/
def planMonthly : Plan :=
  { id := 7, name := "Premium", price := 2500, currency := "NGN",
    duration := Duration.monthly, isActive := true }

/-- Fixture: a store holding one user and one already-successful
subscription transaction. -/
def dbW1 : DB :=
  { users := [baseUser], txns := [{ baseTxn with status := TxStatus.successful }] }

/-- Fixture: charge-completed data matching `baseTxn`. -/
def chargeW1 : ChargeData :=
  { txRef := "SUB_1", flwId := "f1", amount := 2500, currency := "NGN",
    status := "successful", narration := none }

/-- Fixture: a correctly signed charge-completed webhook request. -/
def reqW1 : FlwRequest :=
  { signature := some "sek", event := "charge.completed", data := chargeW1 }

/-- Fixture: an empty store. -/
def dbEmpty : DB := { users := [], txns := [] }

/-- Fixture: a user whose last recorded payment reference is the
delivered one. -/
def userRef1 : User := { baseUser with lastPaymentReference := some "SUB_1" }

/-- Fixture: store holding only `userRef1`. -/
def dbRef1 : DB := { users := [userRef1], txns := [] }

/-- Fixture: a user holding a balance of 10. -/
def userBal10 : User :=
  { baseUser with wallet := { balance := 10, totalEarnings := 0, totalSpent := 0 } }

/-- Fixture: store with the balance-10 user and no transactions. -/
def dbW3 : DB := { users := [userBal10], txns := [] }

/-- Fixture: charge data whose reference matches no stored
transaction, so that processing fails on every attempt. -/
def chargeC9 : ChargeData :=
  { txRef := "nope", flwId := "f9", amount := 100, currency := "NGN",
    status := "successful", narration := none }

/-- Fixture: a correctly signed request carrying `chargeC9`. -/
def reqC9 : FlwRequest :=
  { signature := some "sek", event := "charge.completed", data := chargeC9 }

/-- Fixture: 2024-01-31, the last day of January in a leap year. -/
def dateJan31 : JSDate := { year := 2024, month := 0, day := 31 }

/-- Fixture: 2024-02-29 (month index 1), the clamped date the spec
expects. -/
def dateFeb29 : JSDate := { year := 2024, month := 1, day := 29 }

/-- Fixture: 2024-03-02 (month index 2), the date JS `setMonth`
actually produces from 2024-01-31 plus one month. -/
def dateMar2 : JSDate := { year := 2024, month := 2, day := 2 }

/-- Fixture: an active Pro user whose subscription ends 2024-01-31. -/
def userJan31 : User :=
  { baseUser with
    isPro := true, subscriptionStatus := SubStatus.active,
    subscriptionEndDate := some dateJan31 }

/-- Fixture: a Pro user (id 1) in the past_due grace period whose end
date 2023-12-31 lies before `now0`. -/
def userExpired8 : User :=
  { baseUser with
    id := 1, isPro := true, subscriptionStatus := SubStatus.past_due,
    subscriptionEndDate := some { year := 2023, month := 11, day := 31 } }

/-- Fixture: a Pro user (id 2) active until 2024-06-01. -/
def userActive8 : User :=
  { baseUser with
    id := 2, isPro := true, subscriptionStatus := SubStatus.active,
    subscriptionEndDate := some { year := 2024, month := 5, day := 1 } }

/-- Fixture: a two-user store for the expiry sweep. -/
def dbW8 : DB := { users := [userExpired8, userActive8], txns := [] }

/-- Fixture: renewal candidate with id 1 (plan 7, payment method on
file, ends 2024-01-16, auto-renewal on). -/
def userA7 : User :=
  { baseUser with
    id := 1, isPro := true, subscriptionStatus := SubStatus.active,
    subscriptionPlan := some 7, autoRenewal := true, hasPaymentMethod := true,
    subscriptionEndDate := some { year := 2024, month := 0, day := 16 } }

/-- Fixture: renewal candidate with id 2 whose gateway charge throws. -/
def userB7 : User := { userA7 with id := 2 }

/-- Fixture: renewal candidate with id 3. -/
def userC7 : User := { userA7 with id := 3 }

/-- Fixture: a gateway that throws for user 2 and succeeds for
everyone else. -/
def gwW : Nat → Except String Bool :=
  fun n => if n == 2 then Except.error "gateway down" else Except.ok true

/-- Fixture: an active Pro user carrying both end/expiry stamps, ready
to cancel. -/
def userC6 : User :=
  { baseUser with
    isPro := true, subscriptionStatus := SubStatus.active,
    subscriptionEndDate := some dateJan31, subscriptionExpiresAt := some dateJan31 }

/-- Fixture: store holding only `userC6`. -/
def dbC6 : DB := { users := [userC6], txns := [] }

/-- Fixture: store holding one fresh user and no transactions. -/
def dbOneUser : DB := { users := [baseUser], txns := [] }

/-- Fixture: store with a pending subscription transaction of 3000. -/
def dbC2 : DB :=
  { users := [baseUser], txns := [{ baseTxn with amount := 3000 }] }

/-- Fixture: subscription-webhook charge data reporting 2500 for the
same reference. -/
def subDataC2 : SubChargeData :=
  { txRef := "SUB_1", status := "successful", amount := 2500,
    currency := "NGN", meta := { userId := some 1, planId := some 7 } }

/-! Basic lemmas about the store operations. -/

theorem find?_map_txn (ts : List Txn) (ref : String) (f : Txn → Txn)
    (hf : ∀ t, (f t).txRef = t.txRef) :
    (ts.map (fun t => if t.txRef == ref then f t else t)).find? (fun t => t.txRef == ref)
      = (ts.find? (fun t => t.txRef == ref)).map f := by
  induction ts with
  | nil => rfl
  | cons t ts ih =>
    by_cases h : t.txRef = ref
    · have hb : (t.txRef == ref) = true := by simp [h]
      have hupd : (if t.txRef == ref then f t else t) = f t := by rw [hb]; rfl
      have hb2 : ((f t).txRef == ref) = true := by simp [hf, h]
      rw [List.map_cons, hupd, List.find?_cons, List.find?_cons]
      simp only [hb, hb2]
      rfl
    · have hb : (t.txRef == ref) = false := by simp [h]
      have hupd : (if t.txRef == ref then f t else t) = t := by rw [hb]; rfl
      rw [List.map_cons, hupd, List.find?_cons, List.find?_cons]
      simp only [hb]
      exact ih

theorem findTxnByRef_updateTxnByRef (db : DB) (ref : String) (f : Txn → Txn)
    (hf : ∀ t, (f t).txRef = t.txRef) :
    findTxnByRef (updateTxnByRef db ref f) ref = (findTxnByRef db ref).map f :=
  find?_map_txn db.txns ref f hf

theorem find?_map_user (us : List User) (uid : Nat) (f : User → User)
    (hf : ∀ u, (f u).id = u.id) :
    (us.map (fun u => if u.id == uid then f u else u)).find? (fun u => u.id == uid)
      = (us.find? (fun u => u.id == uid)).map f := by
  induction us with
  | nil => rfl
  | cons u us ih =>
    by_cases h : u.id = uid
    · have hb : (u.id == uid) = true := by simp [h]
      have hupd : (if u.id == uid then f u else u) = f u := by rw [hb]; rfl
      have hb2 : ((f u).id == uid) = true := by simp [hf, h]
      rw [List.map_cons, hupd, List.find?_cons, List.find?_cons]
      simp only [hb, hb2]
      rfl
    · have hb : (u.id == uid) = false := by simp [h]
      have hupd : (if u.id == uid then f u else u) = u := by rw [hb]; rfl
      rw [List.map_cons, hupd, List.find?_cons, List.find?_cons]
      simp only [hb]
      exact ih

theorem findUser_updateUser (db : DB) (uid : Nat) (f : User → User)
    (hf : ∀ u, (f u).id = u.id) :
    findUser (updateUser db uid f) uid = (findUser db uid).map f :=
  find?_map_user db.users uid f hf

theorem findUser_updateTxnByRef (db : DB) (ref : String) (f : Txn → Txn) (uid : Nat) :
    findUser (updateTxnByRef db ref f) uid = findUser db uid := rfl

theorem findTxnByRef_updateUser (db : DB) (uid : Nat) (f : User → User) (ref : String) :
    findTxnByRef (updateUser db uid f) ref = findTxnByRef db ref := rfl

theorem users_updateTxnByRef (db : DB) (ref : String) (f : Txn → Txn) :
    (updateTxnByRef db ref f).users = db.users := rfl

theorem txns_updateUser (db : DB) (uid : Nat) (f : User → User) :
    (updateUser db uid f).txns = db.txns := rfl

/-! Lemmas about the retry loop. -/

theorem retryGo_first_ok (act : DB → DB × Option String) (k g : Nat) (db db1 : DB)
    (h : act db = (db1, none)) : retryGo act k g db = (db1, none, []) := by
  rw [retryGo, h]

theorem retryGo_fail_zero (act : DB → DB × Option String) (k : Nat) (db db1 : DB)
    (e : String) (h : act db = (db1, some e)) :
    retryGo act k 0 db = (db1, some e, []) := by
  rw [retryGo, h]

theorem retryGo_fail_succ (act : DB → DB × Option String) (k g : Nat) (db db1 : DB)
    (e : String) (h : act db = (db1, some e)) :
    retryGo act k (g + 1) db
      = ((retryGo act (k + 1) g db1).1, (retryGo act (k + 1) g db1).2.1,
         (BASE_DELAY * 2 ^ k) :: (retryGo act (k + 1) g db1).2.2) := by
  rw [retryGo, h]

theorem retryGo_ok_exists (act : DB → DB × Option String) :
    ∀ (g k : Nat) (db : DB),
      (retryGo act k g db).2.1 = none →
      ∃ s, act s = ((retryGo act k g db).1, none) := by
  intro g
  induction g with
  | zero =>
    intro k db h
    cases hact : act db with
    | mk db1 r =>
      cases r with
      | none =>
        rw [retryGo_first_ok act k 0 db db1 hact]
        exact ⟨db, hact⟩
      | some e =>
        rw [retryGo_fail_zero act k db db1 e hact] at h
        simp at h
  | succ g ih =>
    intro k db h
    cases hact : act db with
    | mk db1 r =>
      cases r with
      | none =>
        rw [retryGo_first_ok act k (g + 1) db db1 hact]
        exact ⟨db, hact⟩
      | some e =>
        rw [retryGo_fail_succ act k g db db1 e hact] at h ⊢
        exact ih (k + 1) db1 h

theorem retryGo_const_fail (act : DB → DB × Option String) (db : DB) (e : String)
    (h : act db = (db, some e)) :
    ∀ (g k : Nat), retryGo act k g db
      = (db, some e, (List.range g).map (fun i => BASE_DELAY * 2 ^ (k + i))) := by
  intro g
  induction g with
  | zero =>
    intro k
    rw [retryGo_fail_zero act k db db e h]
    rfl
  | succ g ih =>
    intro k
    rw [retryGo_fail_succ act k g db db e h, ih (k + 1)]
    show (db, some e, (BASE_DELAY * 2 ^ k)
          :: (List.range g).map (fun i => BASE_DELAY * 2 ^ (k + 1 + i)))
        = (db, some e, (List.range (g + 1)).map (fun i => BASE_DELAY * 2 ^ (k + i)))
    have htail : (List.range g).map (fun i => BASE_DELAY * 2 ^ (k + 1 + i))
        = (List.range g).map ((fun i => BASE_DELAY * 2 ^ (k + i)) ∘ Nat.succ) := by
      apply List.map_congr_left
      intro i _
      show BASE_DELAY * 2 ^ (k + 1 + i) = BASE_DELAY * 2 ^ (k + (i + 1))
      have hkk : k + 1 + i = k + (i + 1) := by omega
      rw [hkk]
    rw [List.range_succ_eq_map, List.map_cons, List.map_map, ← htail]
    simp

/-! Lemmas about processing a successful payment. -/

theorem processSuccessfulPayment_skip (now : JSDate) (db : DB) (d : ChargeData) (t : Txn)
    (ht : findTxnByRef db d.txRef = some t) (hs : t.status = TxStatus.successful) :
    processSuccessfulPayment now db d = (db, none) := by
  unfold processSuccessfulPayment
  rw [ht]
  simp [hs]

theorem processSuccessfulPayment_mismatch (now : JSDate) (db : DB) (d : ChargeData) (t : Txn)
    (ht : findTxnByRef db d.txRef = some t) (hs : t.status ≠ TxStatus.successful)
    (hm : t.amount ≠ d.amount ∨ t.currency ≠ d.currency) :
    processSuccessfulPayment now db d = (db, some "Payment amount/currency mismatch") := by
  simp only [processSuccessfulPayment, ht]
  rw [if_neg hs, if_pos hm]

theorem processSuccessfulPayment_ok_successful (now : JSDate) (db : DB) (d : ChargeData)
    (h : (processSuccessfulPayment now db d).2 = none) :
    ∃ t2, findTxnByRef (processSuccessfulPayment now db d).1 d.txRef = some t2
      ∧ t2.status = TxStatus.successful := by
  simp only [processSuccessfulPayment] at h ⊢
  cases ht : findTxnByRef db d.txRef with
  | none => simp [ht] at h
  | some txn =>
    simp only [ht] at h ⊢
    by_cases hs : txn.status = TxStatus.successful
    · rw [if_pos hs] at h ⊢
      exact ⟨txn, ht, hs⟩
    · rw [if_neg hs] at h ⊢
      by_cases hm : txn.amount ≠ d.amount ∨ txn.currency ≠ d.currency
      · rw [if_pos hm] at h; simp at h
      · rw [if_neg hm] at h ⊢
        have hfind : findTxnByRef
            (updateTxnByRef db d.txRef (paidTxnUpd now d)) d.txRef
            = some (paidTxnUpd now d txn) := by
          rw [findTxnByRef_updateTxnByRef db d.txRef (paidTxnUpd now d) (fun t => rfl), ht]
          rfl
        cases hu : findUser
            (updateTxnByRef db d.txRef (paidTxnUpd now d)) txn.userId with
        | none => simp [hu] at h
        | some user =>
          simp only [hu] at h ⊢
          cases htt : txn.txType with
          | course_enrollment =>
            simp only [htt] at h ⊢
            cases hc : txn.courseId with
            | none =>
              simp only [hc] at h ⊢
              exact ⟨_, hfind, rfl⟩
            | some cid =>
              simp only [hc] at h ⊢
              by_cases hin : cid ∈ user.enrolledCourses
              · rw [if_pos hin] at h ⊢
                exact ⟨_, hfind, rfl⟩
              · rw [if_neg hin] at h ⊢
                exact ⟨_, hfind, rfl⟩
          | subscription =>
            simp only [htt] at h ⊢
            cases hp : txn.subscriptionPlanId with
            | none =>
              simp only [hp] at h ⊢
              exact ⟨_, hfind, rfl⟩
            | some pid =>
              simp only [hp] at h ⊢
              exact ⟨_, hfind, rfl⟩
          | topup => simp only [htt] at h ⊢; exact ⟨_, hfind, rfl⟩
          | deduction => simp only [htt] at h ⊢; exact ⟨_, hfind, rfl⟩
          | earnings => simp only [htt] at h ⊢; exact ⟨_, hfind, rfl⟩
          | refund => simp only [htt] at h ⊢; exact ⟨_, hfind, rfl⟩
          | withdrawal => simp only [htt] at h ⊢; exact ⟨_, hfind, rfl⟩

/-! Lemmas about the payments webhook handler, and claim C1. -/

theorem handleFlw_skip (secret : Option String) (sig : String) (now : JSDate) (db : DB)
    (req : FlwRequest) (t : Txn)
    (hsig : req.signature = some sig)
    (hver : verifyFlutterwaveSignature secret sig = true)
    (hev : req.event = "charge.completed")
    (hst : req.data.status = "successful")
    (ht : findTxnByRef db req.data.txRef = some t)
    (hs : t.status = TxStatus.successful) :
    handleFlutterwaveWebhook secret now db req = (db, 200) := by
  simp only [handleFlutterwaveWebhook, hsig]
  rw [hver]
  simp only [hev, hst, beq_self_eq_true, if_true]
  rw [retryGo_first_ok (fun s => processSuccessfulPayment now s req.data) 0 MAX_RETRIES db db
    (processSuccessfulPayment_skip now db req.data t ht hs)]
  simp

theorem handleFlw_processing (secret : Option String) (sig : String) (now : JSDate)
    (db : DB) (req : FlwRequest)
    (hsig : req.signature = some sig)
    (hver : verifyFlutterwaveSignature secret sig = true)
    (hev : req.event = "charge.completed")
    (hst : req.data.status = "successful") :
    handleFlutterwaveWebhook secret now db req
      = (match (retryGo (fun s => processSuccessfulPayment now s req.data) 0 MAX_RETRIES db).2.1 with
         | none => ((retryGo (fun s => processSuccessfulPayment now s req.data) 0 MAX_RETRIES db).1, 200)
         | some _ => ((retryGo (fun s => processSuccessfulPayment now s req.data) 0 MAX_RETRIES db).1, 500)) := by
  simp only [handleFlutterwaveWebhook, hsig]
  rw [hver]
  simp only [hev, hst, beq_self_eq_true, if_true]
  simp

/-- Replay behaviour of the payments webhook: a charge-completed
delivery whose referenced Transaction is already successful is
acknowledged with HTTP 200 and the store is returned untouched; and
once a delivery has been processed successfully (200), replaying the
same payload any number of further times leaves the store exactly as
it was after the first delivery. -/
theorem handleFlw_replay_idempotent (secret : Option String) (sig : String)
    (now : JSDate) (db : DB) (req : FlwRequest)
    (hsig : req.signature = some sig)
    (hver : verifyFlutterwaveSignature secret sig = true)
    (hev : req.event = "charge.completed")
    (hst : req.data.status = "successful") :
    (∀ t, findTxnByRef db req.data.txRef = some t → t.status = TxStatus.successful →
        handleFlutterwaveWebhook secret now db req = (db, 200))
    ∧ ((handleFlutterwaveWebhook secret now db req).2 = 200 →
        ∀ n, 1 ≤ n →
          iterState (fun s => (handleFlutterwaveWebhook secret now s req).1) db n
            = iterState (fun s => (handleFlutterwaveWebhook secret now s req).1) db 1) := by
  constructor
  · intro t ht hs
    exact handleFlw_skip secret sig now db req t hsig hver hev hst ht hs
  · intro h200 n hn
    rw [handleFlw_processing secret sig now db req hsig hver hev hst] at h200
    cases hr : (retryGo (fun s => processSuccessfulPayment now s req.data) 0 MAX_RETRIES db).2.1 with
    | some e => rw [hr] at h200; simp at h200
    | none =>
      rw [hr] at h200
      obtain ⟨s, hact⟩ :=
        retryGo_ok_exists (fun s => processSuccessfulPayment now s req.data) MAX_RETRIES 0 db hr
      have h2 : (processSuccessfulPayment now s req.data).2 = none := by rw [hact]
      obtain ⟨t2, hfind2, hst2⟩ := processSuccessfulPayment_ok_successful now s req.data h2
      rw [hact] at hfind2
      have hstep : handleFlutterwaveWebhook secret now
          ((retryGo (fun s => processSuccessfulPayment now s req.data) 0 MAX_RETRIES db).1) req
          = ((retryGo (fun s => processSuccessfulPayment now s req.data) 0 MAX_RETRIES db).1, 200) :=
        handleFlw_skip secret sig now _ req t2 hsig hver hev hst hfind2 hst2
      have hfirst : handleFlutterwaveWebhook secret now db req
          = ((retryGo (fun s => processSuccessfulPayment now s req.data) 0 MAX_RETRIES db).1, 200) := by
        rw [handleFlw_processing secret sig now db req hsig hver hev hst, hr]
      have hone : iterState (fun s => (handleFlutterwaveWebhook secret now s req).1) db 1
          = (retryGo (fun s => processSuccessfulPayment now s req.data) 0 MAX_RETRIES db).1 := by
        show (handleFlutterwaveWebhook secret now db req).1 = _
        rw [hfirst]
      have hall : ∀ m, 1 ≤ m →
          iterState (fun s => (handleFlutterwaveWebhook secret now s req).1) db m
            = (retryGo (fun s => processSuccessfulPayment now s req.data) 0 MAX_RETRIES db).1 := by
        intro m hm
        induction m, hm using Nat.le_induction with
        | base => exact hone
        | succ m hm ih =>
          show (handleFlutterwaveWebhook secret now
            (iterState (fun s => (handleFlutterwaveWebhook secret now s req).1) db m) req).1 = _
          rw [ih, hstep]
      rw [hall n hn, hone]

theorem handleCharge_guard (now : JSDate) (plans : List Plan) (db : DB)
    (d : SubChargeData) (uid : Nat) (user : User)
    (hmu : d.meta.userId = some uid)
    (hfu : findUser db uid = some user)
    (href : user.lastPaymentReference = some d.txRef) :
    handleChargeCompleted now plans db d = db := by
  by_cases hst : d.status ≠ "successful"
  · simp only [handleChargeCompleted]
    rw [if_pos hst]
  · simp only [handleChargeCompleted]
    rw [if_neg hst]
    cases hmp : d.meta.planId with
    | none => simp only [hmu, hmp]
    | some pid =>
      simp only [hmu, hmp, hfu]
      rw [if_pos (by rw [href]; simp)]

theorem handleCharge_result (now : JSDate) (plans : List Plan) (db : DB)
    (d : SubChargeData) :
    handleChargeCompleted now plans db d = db
    ∨ ∃ uid pid user plan,
        d.meta.userId = some uid ∧ d.meta.planId = some pid ∧
        findUser db uid = some user ∧ findPlan plans pid = some plan ∧
        handleChargeCompleted now plans db d
          = updateUser db uid (subControllerActivate now
              (controllerExpiry now plan.duration) pid d.amount (some d.txRef)) := by
  by_cases hst : d.status ≠ "successful"
  · left
    simp only [handleChargeCompleted]
    rw [if_pos hst]
  · cases hmu : d.meta.userId with
    | none =>
      left
      simp only [handleChargeCompleted]
      rw [if_neg hst]
      cases hmp : d.meta.planId with
      | none => simp only [hmu, hmp]
      | some pid => simp only [hmu, hmp]
    | some uid =>
      cases hmp : d.meta.planId with
      | none =>
        left
        simp only [handleChargeCompleted]
        rw [if_neg hst]
        simp only [hmu, hmp]
      | some pid =>
        cases hfu : findUser db uid with
        | none =>
          left
          simp only [handleChargeCompleted]
          rw [if_neg hst]
          simp only [hmu, hmp, hfu]
        | some user =>
          by_cases href : (user.lastPaymentReference == some d.txRef) = true
          · left
            simp only [handleChargeCompleted]
            rw [if_neg hst]
            simp only [hmu, hmp, hfu]
            rw [if_pos href]
          · cases hfp : findPlan plans pid with
            | none =>
              left
              simp only [handleChargeCompleted]
              rw [if_neg hst]
              simp only [hmu, hmp, hfu]
              rw [if_neg href]
              simp only [hfp]
            | some plan =>
              right
              refine ⟨uid, pid, user, plan, rfl, rfl, hfu, hfp, ?_⟩
              simp only [handleChargeCompleted]
              rw [if_neg hst]
              simp only [hmu, hmp, hfu]
              rw [if_neg href]
              simp only [hfp]

theorem handleCharge_idem (now : JSDate) (plans : List Plan) (db : DB)
    (d : SubChargeData) :
    handleChargeCompleted now plans (handleChargeCompleted now plans db d) d
      = handleChargeCompleted now plans db d := by
  rcases handleCharge_result now plans db d with heq | ⟨uid, pid, user, plan, hmu, _hmp, hfu, _hfp, heq⟩
  · rw [heq]
    exact heq
  · rw [heq]
    have hfu2 : findUser (updateUser db uid (subControllerActivate now
        (controllerExpiry now plan.duration) pid d.amount (some d.txRef))) uid
        = some (subControllerActivate now (controllerExpiry now plan.duration) pid
            d.amount (some d.txRef) user) := by
      rw [findUser_updateUser db uid (subControllerActivate now
        (controllerExpiry now plan.duration) pid d.amount (some d.txRef)) (fun u => rfl), hfu]
      rfl
    exact handleCharge_guard now plans _ d uid _ hmu hfu2 rfl

/-- Counterexample to C1 as stated: on the subscription webhook route,
a correctly signed charge-completed delivery whose referenced stored
Transaction is already successful is nevertheless re-applied when the
reference differs from the stored `lastPaymentReference` of the user:
the handler answers 200 and the user state changes (the fresh user
becomes Pro). -/
theorem subscription_webhook_replays_successful_txn :
    (findTxnByRef dbW1 "SUB_1").map Txn.status = some TxStatus.successful
    ∧ (findUser dbW1 1).map User.lastPaymentReference = some none
    ∧ (findUser dbW1 1).map User.isPro = some false
    ∧ (handleSubscriptionWebhook [9] now0 [planMonthly] dbW1
        { signature := some [9], event := "charge.completed", data := subDataC2 }).2 = 200
    ∧ (findUser (handleSubscriptionWebhook [9] now0 [planMonthly] dbW1
        { signature := some [9], event := "charge.completed", data := subDataC2 }).1 1).map
          User.isPro = some true := by
  decide

/-- C1 (amended): on the payments webhook route, a charge-completed
delivery whose referenced Transaction is already successful returns
HTTP 200 with the store untouched, and replaying a successfully
processed payload any number of times changes the store exactly once.
The subscription webhook route keys its replay guard on
`user.lastPaymentReference` instead of the Transaction status: a
delivery matching the stored reference is a 200 no-op, and replaying
the same payload is always applied at most once (re-processing an
already applied delivery is a no-op); but a delivery whose stored
Transaction is successful while the stored user reference differs is
re-applied (see the counterexample). -/
theorem webhook_replay_applied_once :
    (∀ (secret : Option String) (sig : String) (now : JSDate) (db : DB) (req : FlwRequest),
        req.signature = some sig →
        verifyFlutterwaveSignature secret sig = true →
        req.event = "charge.completed" →
        req.data.status = "successful" →
        (∀ t, findTxnByRef db req.data.txRef = some t → t.status = TxStatus.successful →
            handleFlutterwaveWebhook secret now db req = (db, 200))
        ∧ ((handleFlutterwaveWebhook secret now db req).2 = 200 →
            ∀ n, 1 ≤ n →
              iterState (fun s => (handleFlutterwaveWebhook secret now s req).1) db n
                = iterState (fun s => (handleFlutterwaveWebhook secret now s req).1) db 1))
    ∧ (∀ (expected : List Nat) (now : JSDate) (plans : List Plan) (db : DB)
          (sreq : SubWebhookRequest) (uid : Nat) (user : User),
        sreq.signature = some expected →
        sreq.event = "charge.completed" →
        sreq.data.meta.userId = some uid →
        findUser db uid = some user →
        user.lastPaymentReference = some sreq.data.txRef →
        handleSubscriptionWebhook expected now plans db sreq = (db, 200))
    ∧ (∀ (now : JSDate) (plans : List Plan) (db : DB) (d : SubChargeData),
        handleChargeCompleted now plans (handleChargeCompleted now plans db d) d
          = handleChargeCompleted now plans db d) := by
  refine ⟨?_, ?_, handleCharge_idem⟩
  · intro secret sig now db req hsig hver hev hst
    exact handleFlw_replay_idempotent secret sig now db req hsig hver hev hst
  · intro expected now plans db sreq uid user hsig hev hmu hfu href
    have hv : verifyWebhookSignature expected sreq.signature = true := by
      rw [hsig]
      simp [verifyWebhookSignature]
    have h1 : handleSubscriptionWebhook expected now plans db sreq
        = (handleChargeCompleted now plans db sreq.data, 200) := by
      simp only [handleSubscriptionWebhook]
      rw [hv]
      simp [hev]
    rw [h1, handleCharge_guard now plans db sreq.data uid user hmu hfu href]

/-- Witness for the amended C1: the payments route skips an
already-successful Transaction with 200, the subscription route is a
200 no-op when the reference matches the stored one, and re-applying a
subscription-route delivery is a no-op. -/
theorem webhook_replay_applied_once_witness :
    handleFlutterwaveWebhook (some "sek") now0 dbW1 reqW1 = (dbW1, 200)
    ∧ handleSubscriptionWebhook [9] now0 [planMonthly] dbRef1
        { signature := some [9], event := "charge.completed", data := subDataC2 } = (dbRef1, 200)
    ∧ handleChargeCompleted now0 [planMonthly]
        (handleChargeCompleted now0 [planMonthly] dbW1 subDataC2) subDataC2
      = handleChargeCompleted now0 [planMonthly] dbW1 subDataC2 :=
  ⟨(webhook_replay_applied_once.1 (some "sek") "sek" now0 dbW1 reqW1 rfl (by decide)
      rfl rfl).1 { baseTxn with status := TxStatus.successful } (by decide) rfl,
   webhook_replay_applied_once.2.1 [9] now0 [planMonthly] dbRef1
     { signature := some [9], event := "charge.completed", data := subDataC2 } 1 userRef1
     rfl rfl rfl (by decide) rfl,
   webhook_replay_applied_once.2.2 now0 [planMonthly] dbW1 subDataC2⟩

/-- C5: a webhook request with a missing or incorrect signature header
is answered with HTTP 401 and the store is returned unchanged,
regardless of the payload, on both webhook routes (the payments route
compares the header with the shared secret; the subscription route
compares the decoded header bytes with the expected HMAC digest). -/
theorem webhook_invalid_signature_rejected :
    (∀ (secret : Option String) (now : JSDate) (db : DB) (req : FlwRequest),
        (req.signature = none ∨
          ∃ s, req.signature = some s ∧ (secret = none ∨ some s ≠ secret)) →
        handleFlutterwaveWebhook secret now db req = (db, 401))
    ∧ (∀ (expected : List Nat) (now : JSDate) (plans : List Plan) (db : DB)
          (req : SubWebhookRequest),
        req.signature ≠ some expected →
        handleSubscriptionWebhook expected now plans db req = (db, 401)) := by
  constructor
  · intro secret now db req h
    rcases h with hnone | ⟨s, hs, hbad⟩
    · simp [handleFlutterwaveWebhook, hnone]
    · have hfalse : verifyFlutterwaveSignature secret s = false := by
        cases secret with
        | none => rfl
        | some sec =>
          rcases hbad with h1 | h2
          · exact absurd h1 (by simp)
          · show (s == sec) = false
            simp only [beq_eq_false_iff_ne, ne_eq]
            intro hcon
            exact h2 (by rw [hcon])
      simp [handleFlutterwaveWebhook, hs, hfalse]
  · intro expected now plans db req h
    have hfalse : verifyWebhookSignature expected req.signature = false := by
      cases hsg : req.signature with
      | none => rfl
      | some s =>
        show (s == expected) = false
        simp only [beq_eq_false_iff_ne, ne_eq]
        intro hcon
        exact h (by rw [hsg, hcon])
    simp [handleSubscriptionWebhook, hfalse]

/-- Witness for C5 on both routes. -/
theorem webhook_invalid_signature_rejected_witness :
    handleFlutterwaveWebhook (some "sek") now0 dbW1
        { reqW1 with signature := some "bad" } = (dbW1, 401)
    ∧ handleSubscriptionWebhook [7, 7] now0 [planMonthly] dbW1
        { signature := none, event := "charge.completed", data := subDataC2 } = (dbW1, 401) :=
  ⟨webhook_invalid_signature_rejected.1 (some "sek") now0 dbW1 _
      (Or.inr ⟨"bad", rfl, Or.inr (by decide)⟩),
   webhook_invalid_signature_rejected.2 [7, 7] now0 [planMonthly] dbW1 _ (by decide)⟩

/-- C2 (amended): on the payments webhook route, a charge-completed
delivery whose amount or currency differs from the stored pending
Transaction aborts with HTTP 500 (after the retry loop) and changes
nothing: the Transaction stays pending and no user state is touched.
The subscription webhook route performs no such cross-check (see the
counterexample). -/
theorem payments_webhook_amount_mismatch_aborts (secret : Option String) (sig : String)
    (now : JSDate) (db : DB) (req : FlwRequest) (t : Txn)
    (hsig : req.signature = some sig)
    (hver : verifyFlutterwaveSignature secret sig = true)
    (hev : req.event = "charge.completed")
    (hst : req.data.status = "successful")
    (ht : findTxnByRef db req.data.txRef = some t)
    (hpend : t.status ≠ TxStatus.successful)
    (hm : t.amount ≠ req.data.amount ∨ t.currency ≠ req.data.currency) :
    handleFlutterwaveWebhook secret now db req = (db, 500) := by
  rw [handleFlw_processing secret sig now db req hsig hver hev hst]
  have hact : processSuccessfulPayment now db req.data
      = (db, some "Payment amount/currency mismatch") :=
    processSuccessfulPayment_mismatch now db req.data t ht hpend hm
  rw [retryGo_const_fail (fun s => processSuccessfulPayment now s req.data) db
    "Payment amount/currency mismatch" hact MAX_RETRIES 0]

/-- Witness for the amended C2 at the spec scenario (stored 3000,
notified 2500). -/
theorem payments_webhook_amount_mismatch_aborts_witness :
    handleFlutterwaveWebhook (some "sek") now0 dbC2 reqW1 = (dbC2, 500) :=
  payments_webhook_amount_mismatch_aborts (some "sek") "sek" now0 dbC2 reqW1
    { baseTxn with amount := 3000 } rfl (by decide) rfl rfl (by decide) (by decide)
    (Or.inl (by decide))

/-- Counterexample to C2 as stated: the subscription webhook route
accepts a charge whose amount (2500) differs from the stored pending
Transaction (3000) for the same reference and activates the
subscription anyway, answering 200 with no error surfaced. -/
theorem subscription_webhook_amount_mismatch_accepted :
    findTxnByRef dbC2 "SUB_1" = some { baseTxn with amount := 3000 }
    ∧ ({ baseTxn with amount := 3000 } : Txn).amount = 3000
    ∧ subDataC2.amount = 2500
    ∧ (handleSubscriptionWebhook [9] now0 [planMonthly] dbC2
        { signature := some [9], event := "charge.completed", data := subDataC2 }).2 = 200
    ∧ (findUser (handleSubscriptionWebhook [9] now0 [planMonthly] dbC2
        { signature := some [9], event := "charge.completed", data := subDataC2 }).1 1).map
          User.isPro = some true
    ∧ (findUser (handleSubscriptionWebhook [9] now0 [planMonthly] dbC2
        { signature := some [9], event := "charge.completed", data := subDataC2 }).1 1).map
          User.subscriptionStatus = some SubStatus.active
    ∧ (findTxnByRef (handleSubscriptionWebhook [9] now0 [planMonthly] dbC2
        { signature := some [9], event := "charge.completed", data := subDataC2 }).1 "SUB_1").map
          Txn.status = some TxStatus.pending := by
  decide

/-- Counterexample to C9 as stated: when processing keeps failing (here
the referenced Transaction does not exist), the handler does retry, but
after the retries are exhausted it answers HTTP 500 — not 200 — exactly
so that the provider redelivers. -/
theorem webhook_retry_exhaustion_returns_500 :
    handleFlutterwaveWebhook (some "sek") now0 dbEmpty reqC9 = (dbEmpty, 500)
    ∧ (500 : Nat) ≠ 200
    ∧ (retryGo (fun s => processSuccessfulPayment now0 s chargeC9) 0 MAX_RETRIES dbEmpty).2.2
        = [1000, 2000, 4000] := by
  decide

/-- C9 (amended): failures after signature verification are retried
with exponential backoff (base delay 1000 ms, doubled for each of the
at most 3 retries); when every attempt fails and leaves the store
unchanged, the handler responds HTTP 500 — inviting provider
redelivery rather than acknowledging with 200 — and the store, in
particular the pending Transaction, is returned untouched for manual
reconciliation. -/
theorem webhook_retry_backoff_then_500 (secret : Option String) (sig : String)
    (now : JSDate) (db : DB) (req : FlwRequest) (e : String)
    (hsig : req.signature = some sig)
    (hver : verifyFlutterwaveSignature secret sig = true)
    (hev : req.event = "charge.completed")
    (hst : req.data.status = "successful")
    (hfail : processSuccessfulPayment now db req.data = (db, some e)) :
    handleFlutterwaveWebhook secret now db req = (db, 500)
    ∧ (retryGo (fun s => processSuccessfulPayment now s req.data) 0 MAX_RETRIES db).2.2
        = [BASE_DELAY * 2 ^ 0, BASE_DELAY * 2 ^ 1, BASE_DELAY * 2 ^ 2] := by
  have hconst := retryGo_const_fail (fun s => processSuccessfulPayment now s req.data) db e hfail
  constructor
  · rw [handleFlw_processing secret sig now db req hsig hver hev hst, hconst MAX_RETRIES 0]
  · rw [hconst MAX_RETRIES 0]
    rfl

/-- Witness for the amended C9. -/
theorem webhook_retry_backoff_then_500_witness :
    handleFlutterwaveWebhook (some "sek") now0 dbEmpty reqC9 = (dbEmpty, 500)
    ∧ (retryGo (fun s => processSuccessfulPayment now0 s reqC9.data) 0 MAX_RETRIES dbEmpty).2.2
        = [BASE_DELAY * 2 ^ 0, BASE_DELAY * 2 ^ 1, BASE_DELAY * 2 ^ 2] :=
  webhook_retry_backoff_then_500 (some "sek") "sek" now0 dbEmpty reqC9 "Transaction not found"
    rfl (by decide) rfl rfl (by decide)

theorem normalizeDay_le (y : Int) (m day : Nat) (h : day ≤ daysInMonth y m) :
    normalizeDay ⟨y, m, day⟩ = ⟨y, m, day⟩ := by
  unfold normalizeDay
  split
  · rename_i hc
    exfalso
    change day > daysInMonth y m at hc
    omega
  · rfl

theorem normalizeDay_gt (y : Int) (m day : Nat) (h : day > daysInMonth y m) :
    normalizeDay ⟨y, m, day⟩
      = ⟨y + Int.ofNat ((m + 1) / 12), (m + 1) % 12, day - daysInMonth y m⟩ := by
  unfold normalizeDay
  split
  · rfl
  · rename_i hc
    exfalso
    change ¬ day > daysInMonth y m at hc
    omega

/-- Counterexample to C4 as stated: renewing a monthly subscription
that ends 2024-01-31 produces 2024-03-02 (JS setMonth day overflow),
not the calendar-clamped 2024-02-29 the claim asserts. -/
theorem extendSubscription_jan31_overflows :
    (extendSubscriptionUser userJan31 planMonthly).subscriptionEndDate = some dateMar2
    ∧ (extendSubscriptionUser userJan31 planMonthly).subscriptionEndDate ≠ some dateFeb29 := by
  decide

/-- C4 (amended): a successful renewal keeps the status active and
extends from the previous end date (not from the sweep time) by one
plan-duration unit of JS date arithmetic: the month index advances and
the day-of-month is kept when it exists in the target month, while a
day beyond the length of the target month rolls over into the following
month instead of clamping — so 2024-01-31 plus one month is
2024-03-02. -/
theorem extendSubscription_calendar_extension :
    (∀ (u : User) (plan : Plan) (d : JSDate), u.subscriptionEndDate = some d →
        (extendSubscriptionUser u plan).subscriptionStatus = SubStatus.active
        ∧ (extendSubscriptionUser u plan).subscriptionEndDate
            = some (jsAddDuration plan.duration d))
    ∧ (∀ d : JSDate, d.month + 1 < 12 → d.day ≤ daysInMonth d.year (d.month + 1) →
        jsSetMonthAdd d 1 = { year := d.year, month := d.month + 1, day := d.day })
    ∧ (∀ d : JSDate, d.month + 2 < 12 → d.day > daysInMonth d.year (d.month + 1) →
        jsSetMonthAdd d 1 = { year := d.year, month := d.month + 2,
                              day := d.day - daysInMonth d.year (d.month + 1) })
    ∧ jsSetMonthAdd dateJan31 1 = dateMar2 := by
  refine ⟨?_, ?_, ?_, by decide⟩
  · intro u plan d hd
    constructor
    · rfl
    · show (u.subscriptionEndDate.map (jsAddDuration plan.duration)) = _
      rw [hd]
      rfl
  · intro d h1 hle
    simp only [jsSetMonthAdd]
    rw [Nat.div_eq_of_lt h1, Nat.mod_eq_of_lt h1]
    have hy : d.year + Int.ofNat 0 = d.year := by simp
    rw [hy]
    exact normalizeDay_le d.year (d.month + 1) d.day hle
  · intro d h2 hgt
    have h1 : d.month + 1 < 12 := by omega
    simp only [jsSetMonthAdd]
    rw [Nat.div_eq_of_lt h1, Nat.mod_eq_of_lt h1]
    have hy : d.year + Int.ofNat 0 = d.year := by simp
    rw [hy]
    rw [normalizeDay_gt d.year (d.month + 1) d.day hgt]
    have hm2 : (d.month + 1 + 1) / 12 = 0 := Nat.div_eq_of_lt (by omega)
    have hm3 : (d.month + 1 + 1) % 12 = d.month + 2 := by
      rw [Nat.mod_eq_of_lt (by omega)]
    rw [hm2, hm3]
    simp

/-- Witness for the amended C4. -/
theorem extendSubscription_calendar_extension_witness :
    (extendSubscriptionUser userJan31 planMonthly).subscriptionStatus = SubStatus.active
    ∧ (extendSubscriptionUser userJan31 planMonthly).subscriptionEndDate
        = some (jsAddDuration planMonthly.duration dateJan31) :=
  extendSubscription_calendar_extension.1 userJan31 planMonthly dateJan31 rfl

/-- C10: confirming a pending top-up Transaction of amount `a` credits
both `wallet.balance` and `wallet.totalEarnings` by exactly `a`, on the
`verifyPayment` route as well as through the internal
`addTokensToWallet` path. -/
theorem topup_credit_increases_totalEarnings :
    (∀ (db : DB) (uid : Nat) (ref : String) (flwId : Option String) (u : User) (t : Txn),
        findUser db uid = some u →
        findUserTxn db ref uid = some t →
        t.status = TxStatus.pending →
        findUser (verifyPayment db uid ref true flwId).1 uid = some (creditWallet t.amount u)
        ∧ (creditWallet t.amount u).wallet.totalEarnings = u.wallet.totalEarnings + t.amount
        ∧ (creditWallet t.amount u).wallet.balance = u.wallet.balance + t.amount)
    ∧ (∀ (db : DB) (uid : Nat) (a : Int) (ref : String) (u : User),
        findUser db uid = some u →
        (addTokensToWallet db uid a ref).2 = some (u.wallet.balance + a)
        ∧ findUser (addTokensToWallet db uid a ref).1 uid = some (creditWallet a u)
        ∧ (creditWallet a u).wallet.totalEarnings = u.wallet.totalEarnings + a) := by
  constructor
  · intro db uid ref flwId u t hu ht hpend
    have hne : ¬ t.status = TxStatus.successful := by
      rw [hpend]; intro hh; cases hh
    refine ⟨?_, rfl, rfl⟩
    simp only [verifyPayment, hu, ht]
    rw [if_neg hne]
    show findUser (updateUser (updateTxnByRef db ref _) uid (creditWallet t.amount)) uid
        = some (creditWallet t.amount u)
    rw [findUser_updateUser _ uid (creditWallet t.amount) (fun v => rfl)]
    rw [findUser_updateTxnByRef]
    rw [hu]
    rfl
  · intro db uid a ref u hu
    refine ⟨?_, ?_, rfl⟩
    · simp only [addTokensToWallet, hu]
    · simp only [addTokensToWallet, hu]
      show findUser (updateTxnByRef (updateUser db uid (creditWallet a)) ref _) uid
          = some (creditWallet a u)
      rw [findUser_updateTxnByRef]
      rw [findUser_updateUser _ uid (creditWallet a) (fun v => rfl)]
      rw [hu]
      rfl

/-- Witness for C10. -/
theorem topup_credit_increases_totalEarnings_witness :
    findUser (verifyPayment dbC2 1 "SUB_1" true (some "fw")).1 1
      = some (creditWallet 3000 baseUser)
    ∧ (creditWallet 3000 baseUser).wallet.totalEarnings
        = baseUser.wallet.totalEarnings + 3000
    ∧ (creditWallet 3000 baseUser).wallet.balance = baseUser.wallet.balance + 3000 :=
  topup_credit_increases_totalEarnings.1 dbC2 1 "SUB_1" (some "fw") baseUser
    { baseTxn with amount := 3000 } (by decide) (by decide) rfl

/-! Lemmas for the wallet non-negativity invariant, and claim C3. -/

theorem find?_user_unique (us : List User) (uid : Nat) (u0 u : User)
    (hfind : us.find? (fun x => x.id == uid) = some u0)
    (hnd : (us.map User.id).Nodup) (hu : u ∈ us) (hid : u.id = uid) : u = u0 := by
  induction us with
  | nil => cases hu
  | cons v vs ih =>
    rw [List.map_cons, List.nodup_cons] at hnd
    obtain ⟨hv_notin, hnd_tl⟩ := hnd
    by_cases hv : v.id = uid
    · have hb : (v.id == uid) = true := by simp [hv]
      rw [List.find?_cons] at hfind
      simp only [hb] at hfind
      have hv0 : v = u0 := by injection hfind
      cases hu with
      | head => exact hv0
      | tail _ hmem =>
        exfalso
        apply hv_notin
        rw [hv, ← hid]
        exact List.mem_map_of_mem User.id hmem
    · have hb : (v.id == uid) = false := by simp [hv]
      rw [List.find?_cons] at hfind
      simp only [hb] at hfind
      cases hu with
      | head => exact absurd hid hv
      | tail _ hmem => exact ih hfind hnd_tl hmem

theorem deductTokens_state (db : DB) (uid : Nat) (a : Int) (ref ds : String) :
    (deductTokens db uid a ref ds).1 = db
    ∨ (∃ u0, findUser db uid = some u0 ∧ 0 < a ∧ a ≤ u0.wallet.balance ∧
        (deductTokens db uid a ref ds).1.users
          = db.users.map (fun v => if v.id == uid then debitWallet a v else v)) := by
  cases hu : findUser db uid with
  | none => left; simp only [deductTokens, hu]
  | some u0 =>
    by_cases ha : a ≤ 0
    · left; simp only [deductTokens, hu]; rw [if_pos ha]
    · by_cases hb : u0.wallet.balance < a
      · left; simp only [deductTokens, hu]; rw [if_neg ha, if_pos hb]
      · right
        refine ⟨u0, rfl, by omega, by omega, ?_⟩
        simp only [deductTokens, hu]
        rw [if_neg ha, if_neg hb]
        rfl

theorem deduct_step_nonneg (db : DB) (uid : Nat) (a : Int) (ref ds : String)
    (hnd : (db.users.map User.id).Nodup)
    (hpos : ∀ u ∈ db.users, 0 ≤ u.wallet.balance) :
    (deductTokens db uid a ref ds).1.users.map User.id = db.users.map User.id
    ∧ ∀ u ∈ (deductTokens db uid a ref ds).1.users, 0 ≤ u.wallet.balance := by
  rcases deductTokens_state db uid a ref ds with heq | ⟨u0, hu0, hapos, hale, husers⟩
  · rw [heq]; exact ⟨rfl, hpos⟩
  · rw [husers]
    constructor
    · rw [List.map_map]
      apply List.map_congr_left
      intro v _
      show User.id (if v.id == uid then debitWallet a v else v) = v.id
      split
      · rfl
      · rfl
    · intro u hu
      rw [List.mem_map] at hu
      obtain ⟨v, hv, rfl⟩ := hu
      by_cases hvv : (v.id == uid) = true
      · rw [if_pos hvv]
        have hveq : v = u0 :=
          find?_user_unique db.users uid u0 v hu0 hnd hv (by simpa using hvv)
        rw [hveq]
        show 0 ≤ u0.wallet.balance - a
        omega
      · rw [if_neg hvv]
        exact hpos v hv

theorem runDeducts_nonneg (reqs : List (Nat × Int × String × String)) :
    ∀ db : DB, (db.users.map User.id).Nodup →
    (∀ u ∈ db.users, 0 ≤ u.wallet.balance) →
    ∀ u ∈ (runDeducts db reqs).users, 0 ≤ u.wallet.balance := by
  induction reqs with
  | nil => intro db _ hpos; exact hpos
  | cons r rs ih =>
    intro db hnd hpos
    have hstep := deduct_step_nonneg db r.1 r.2.1 r.2.2.1 r.2.2.2 hnd hpos
    show ∀ u ∈ (runDeducts (deductTokens db r.1 r.2.1 r.2.2.1 r.2.2.2).1 rs).users,
      0 ≤ u.wallet.balance
    apply ih
    · rw [hstep.1]; exact hnd
    · exact hstep.2

/-- C3: a `deductTokens` request with a non-positive amount is rejected
with the store unchanged; a request exceeding the balance is rejected
with the store unchanged and the response reports both the available
balance and the required amount; an accepted deduction debits the
balance and credits `totalSpent` by exactly the amount and records a
successful deduction Transaction; and across every sequence of
`deductTokens` calls, every wallet balance stays non-negative. -/
theorem deductTokens_balance_invariant :
    (∀ (db : DB) (uid : Nat) (a : Int) (ref ds : String) (u : User),
        findUser db uid = some u →
        ((a ≤ 0 → deductTokens db uid a ref ds = (db, DeductResp.invalidAmount))
        ∧ (0 < a → u.wallet.balance < a →
            deductTokens db uid a ref ds
              = (db, DeductResp.insufficient u.wallet.balance a))
        ∧ (0 < a → a ≤ u.wallet.balance →
            (deductTokens db uid a ref ds).2 = DeductResp.ok (u.wallet.balance - a)
            ∧ findUser (deductTokens db uid a ref ds).1 uid = some (debitWallet a u)
            ∧ (deductTokens db uid a ref ds).1.txns = deductTxnRec u a ref ds :: db.txns
            ∧ (debitWallet a u).wallet.balance = u.wallet.balance - a
            ∧ (debitWallet a u).wallet.totalSpent = u.wallet.totalSpent + a)))
    ∧ (∀ (db : DB) (reqs : List (Nat × Int × String × String)),
        (db.users.map User.id).Nodup →
        (∀ u ∈ db.users, 0 ≤ u.wallet.balance) →
        ∀ u ∈ (runDeducts db reqs).users, 0 ≤ u.wallet.balance) := by
  constructor
  · intro db uid a ref ds u hu
    refine ⟨?_, ?_, ?_⟩
    · intro ha
      simp only [deductTokens, hu]
      rw [if_pos ha]
    · intro hpos hlt
      simp only [deductTokens, hu]
      rw [if_neg (by omega), if_pos hlt]
    · intro hpos hle
      simp only [deductTokens, hu]
      rw [if_neg (by omega), if_neg (by omega)]
      refine ⟨rfl, ?_, rfl, rfl, rfl⟩
      rw [findUser_updateUser _ uid (debitWallet a) (fun v => rfl)]
      have hu2 : findUser { db with txns := deductTxnRec u a ref ds :: db.txns } uid = some u := hu
      rw [hu2]
      rfl
  · intro db reqs hnd hpos
    exact runDeducts_nonneg reqs db hnd hpos

/-- Witness for C3 at a balance of 10: rejecting -5 and 25, accepting
4, and a two-step sequence staying non-negative. -/
theorem deductTokens_balance_invariant_witness :
    deductTokens dbW3 1 (-5) "r1" "d" = (dbW3, DeductResp.invalidAmount)
    ∧ deductTokens dbW3 1 25 "r1" "d" = (dbW3, DeductResp.insufficient 10 25)
    ∧ (deductTokens dbW3 1 4 "r1" "d").2 = DeductResp.ok 6
    ∧ ∀ u ∈ (runDeducts dbW3 [(1, 4, "r1", "d"), (1, 9, "r2", "d")]).users,
        0 ≤ u.wallet.balance :=
  ⟨((deductTokens_balance_invariant.1 dbW3 1 (-5) "r1" "d" userBal10 (by decide)).1 (by decide)),
   ((deductTokens_balance_invariant.1 dbW3 1 25 "r1" "d" userBal10 (by decide)).2.1
      (by decide) (by decide)),
   ((deductTokens_balance_invariant.1 dbW3 1 4 "r1" "d" userBal10 (by decide)).2.2
      (by decide) (by decide)).1,
   deductTokens_balance_invariant.2 dbW3 [(1, 4, "r1", "d"), (1, 9, "r2", "d")]
     (by decide) (by decide)⟩

/-! Machinery for the scheduled sweeps: a sweep is a fold of by-id
updates over the snapshot of matching users; with unique ids (Mongo
primary keys) it acts pointwise. -/

theorem foldl_updateUser_users (g : User → User → User) (cs : List User) :
    ∀ db : DB,
      (cs.foldl (fun s c => updateUser s c.id (g c)) db).users
        = db.users.map (fun v => cs.foldl (fun w c => if w.id == c.id then g c w else w) v) := by
  induction cs with
  | nil =>
    intro db
    simp
  | cons c cs ih =>
    intro db
    rw [List.foldl_cons, ih (updateUser db c.id (g c))]
    show (db.users.map (fun u => if u.id == c.id then g c u else u)).map
        (fun v => cs.foldl (fun w c2 => if w.id == c2.id then g c2 w else w) v) = _
    rw [List.map_map]
    apply List.map_congr_left
    intro v _
    rfl

theorem foldl_updateUser_txns (g : User → User → User) (cs : List User) :
    ∀ db : DB, (cs.foldl (fun s c => updateUser s c.id (g c)) db).txns = db.txns := by
  induction cs with
  | nil => intro db; rfl
  | cons c cs ih =>
    intro db
    rw [List.foldl_cons, ih (updateUser db c.id (g c))]
    rfl

theorem foldl_innerStep_of_ne (g : User → User → User) (v : User) (cs : List User)
    (h : ∀ c ∈ cs, ¬ v.id = c.id) :
    cs.foldl (fun w c => if w.id == c.id then g c w else w) v = v := by
  induction cs with
  | nil => rfl
  | cons c cs ih =>
    rw [List.foldl_cons]
    have hb : (v.id == c.id) = false := by simp [h c (List.mem_cons_self c cs)]
    rw [if_neg (by simp [hb])]
    exact ih (fun c2 hc2 => h c2 (List.mem_cons_of_mem c hc2))

theorem foldl_innerStep_filter (p : User → Bool) (g : User → User → User)
    (hid : ∀ c w, (g c w).id = w.id) :
    ∀ (us : List User) (v : User), (us.map User.id).Nodup → v ∈ us →
      (us.filter p).foldl (fun w c => if w.id == c.id then g c w else w) v
        = if p v then g v v else v := by
  intro us
  induction us with
  | nil => intro v _ hv; cases hv
  | cons u us ih =>
    intro v hnd hv
    rw [List.map_cons, List.nodup_cons] at hnd
    obtain ⟨hnotin, hnd_tl⟩ := hnd
    cases hv with
    | head =>
      by_cases hp : p u = true
      · rw [List.filter_cons_of_pos (by simpa using hp), List.foldl_cons]
        have hb : (u.id == u.id) = true := by simp
        rw [if_pos hb, if_pos hp]
        apply foldl_innerStep_of_ne
        intro c hc hcc
        apply hnotin
        rw [hid u u] at hcc
        rw [hcc]
        exact List.mem_map_of_mem User.id (List.mem_of_mem_filter hc)
      · rw [List.filter_cons_of_neg (by simpa using hp), if_neg hp]
        apply foldl_innerStep_of_ne
        intro c hc hcc
        apply hnotin
        rw [hcc]
        exact List.mem_map_of_mem User.id (List.mem_of_mem_filter hc)
    | tail _ hmem =>
      have hb : (v.id == u.id) = false := by
        simp only [beq_eq_false_iff_ne, ne_eq]
        intro hvv
        apply hnotin
        rw [← hvv]
        exact List.mem_map_of_mem User.id hmem
      by_cases hp : p u = true
      · rw [List.filter_cons_of_pos (by simpa using hp), List.foldl_cons,
          if_neg (by simp [hb])]
        exact ih v hnd_tl hmem
      · rw [List.filter_cons_of_neg (by simpa using hp)]
        exact ih v hnd_tl hmem

theorem applyOutcome_id (o : RenewOutcome) (w : User) : (applyOutcome o w).id = w.id := by
  cases o <;> rfl

theorem checkExpired_users_char (now : JSDate) (db : DB)
    (hnd : (db.users.map User.id).Nodup) :
    (checkExpiredSubscriptions now db).users
      = db.users.map (fun v => if subExpired now v then expireApply now v else v) := by
  unfold checkExpiredSubscriptions
  rw [foldl_updateUser_users (fun _c w => expireApply now w)
    (db.users.filter (subExpired now)) db]
  apply List.map_congr_left
  intro v hv
  exact foldl_innerStep_filter (subExpired now) (fun _c w => expireApply now w)
    (fun _c _w => rfl) db.users v hnd hv

theorem checkExpired_txns (now : JSDate) (db : DB) :
    (checkExpiredSubscriptions now db).txns = db.txns := by
  unfold checkExpiredSubscriptions
  exact foldl_updateUser_txns (fun _c w => expireApply now w)
    (db.users.filter (subExpired now)) db

theorem renewal_users_char (now : JSDate) (plans : List Plan)
    (gw : Nat → Except String Bool) (db : DB)
    (hnd : (db.users.map User.id).Nodup) :
    (processAutoRenewals now plans gw db).users = db.users.map (renewStep now plans gw) := by
  unfold processAutoRenewals
  rw [foldl_updateUser_users (fun c => applyOutcome (attemptOutcome plans gw c))
    (db.users.filter (renewalCandidate now)) db]
  apply List.map_congr_left
  intro v hv
  exact foldl_innerStep_filter (renewalCandidate now)
    (fun c => applyOutcome (attemptOutcome plans gw c))
    (fun c w => applyOutcome_id (attemptOutcome plans gw c) w) db.users v hnd hv

theorem db_eq_of_parts (d1 d2 : DB) (h1 : d1.users = d2.users) (h2 : d1.txns = d2.txns) :
    d1 = d2 := by
  cases d1
  cases d2
  simp only at h1 h2
  rw [h1, h2]

theorem subExpired_expireApply (now now2 : JSDate) (v : User) :
    subExpired now2 (expireApply now v) = false := by
  unfold subExpired expireApply
  simp

theorem expireApply_id (now : JSDate) (v : User) : (expireApply now v).id = v.id := rfl

/-- C8: one expiry sweep rewrites exactly the users matching the expiry
query (Pro, status active or past_due, end date before `now`) to
non-Pro expired users and leaves every other user and all transactions
untouched; and running the sweep twice at the same instant equals
running it once — the second run is a no-op. -/
theorem expiry_sweep_exact_and_idempotent (now : JSDate) (db : DB)
    (hnd : (db.users.map User.id).Nodup) :
    (checkExpiredSubscriptions now db).users
      = db.users.map (fun v => if subExpired now v then expireApply now v else v)
    ∧ (checkExpiredSubscriptions now db).txns = db.txns
    ∧ checkExpiredSubscriptions now (checkExpiredSubscriptions now db)
        = checkExpiredSubscriptions now db := by
  have hchar := checkExpired_users_char now db hnd
  refine ⟨hchar, checkExpired_txns now db, ?_⟩
  have hid2 : (checkExpiredSubscriptions now db).users.map User.id
      = db.users.map User.id := by
    rw [hchar, List.map_map]
    apply List.map_congr_left
    intro v _
    show User.id (if subExpired now v then expireApply now v else v) = v.id
    split
    · rfl
    · rfl
  have hnd2 : ((checkExpiredSubscriptions now db).users.map User.id).Nodup := by
    rw [hid2]; exact hnd
  have hchar2 := checkExpired_users_char now (checkExpiredSubscriptions now db) hnd2
  apply db_eq_of_parts
  · rw [hchar2, hchar, List.map_map]
    apply List.map_congr_left
    intro v _
    show (if subExpired now (if subExpired now v then expireApply now v else v)
          then expireApply now (if subExpired now v then expireApply now v else v)
          else (if subExpired now v then expireApply now v else v)) = _
    by_cases hp : subExpired now v = true
    · rw [if_pos hp, if_neg (by rw [subExpired_expireApply]; intro hc; cases hc)]
    · rw [if_neg hp, if_neg hp]
  · rw [checkExpired_txns]

/-- Witness for C8 on a two-user store where exactly one user matches
the expiry query. -/
theorem expiry_sweep_exact_and_idempotent_witness :
    (checkExpiredSubscriptions now0 dbW8).users
      = dbW8.users.map (fun v => if subExpired now0 v then expireApply now0 v else v)
    ∧ checkExpiredSubscriptions now0 (checkExpiredSubscriptions now0 dbW8)
        = checkExpiredSubscriptions now0 dbW8 :=
  ⟨(expiry_sweep_exact_and_idempotent now0 dbW8 (by decide)).1,
   (expiry_sweep_exact_and_idempotent now0 dbW8 (by decide)).2.2⟩

theorem attemptOutcome_pastDue_of_gw_error (plans : List Plan)
    (gw : Nat → Except String Bool) (u : User) (e : String)
    (hgw : gw u.id = Except.error e) :
    attemptOutcome plans gw u = RenewOutcome.pastDue := by
  cases hpl : u.subscriptionPlan.bind (findPlan plans) with
  | none => simp only [attemptOutcome, hpl]
  | some plan =>
    simp only [attemptOutcome, hpl]
    by_cases hpm : u.hasPaymentMethod = false
    · rw [if_pos hpm]
    · rw [if_neg hpm]
      by_cases hpr : plan.price ≤ 0
      · rw [if_pos hpr]
      · rw [if_neg hpr, hgw]

/-- C7: in a renewal sweep over three users where the gateway charge
of the second user throws, the sweep still completes, the first and third
users end exactly as they would in a sweep without the second user, and
the second user ends with status past_due and `isPro` still set — a
single well-defined final state. -/
theorem renewal_sweep_per_user_isolation (now : JSDate) (plans : List Plan)
    (gw : Nat → Except String Bool) (A B C : User) (ts : List Txn) (e : String)
    (hab : A.id ≠ B.id) (hac : A.id ≠ C.id) (hbc : B.id ≠ C.id)
    (hBcand : renewalCandidate now B = true)
    (hBpro : B.isPro = true)
    (hgw : gw B.id = Except.error e) :
    (processAutoRenewals now plans gw { users := [A, B, C], txns := ts }).users
      = [renewStep now plans gw A,
         { B with subscriptionStatus := SubStatus.past_due },
         renewStep now plans gw C]
    ∧ (processAutoRenewals now plans gw { users := [A, C], txns := ts }).users
      = [renewStep now plans gw A, renewStep now plans gw C]
    ∧ ({ B with subscriptionStatus := SubStatus.past_due }).isPro = true := by
  have hB : renewStep now plans gw B = { B with subscriptionStatus := SubStatus.past_due } := by
    unfold renewStep
    rw [if_pos hBcand, attemptOutcome_pastDue_of_gw_error plans gw B e hgw]
    rfl
  have hnd3 : (([A, B, C] : List User).map User.id).Nodup := by
    simp [List.nodup_cons, hab, hac, hbc]
  have hnd2 : (([A, C] : List User).map User.id).Nodup := by
    simp [List.nodup_cons, hac]
  refine ⟨?_, ?_, hBpro⟩
  · rw [renewal_users_char now plans gw { users := [A, B, C], txns := ts } hnd3]
    show [renewStep now plans gw A, renewStep now plans gw B, renewStep now plans gw C] = _
    rw [hB]
  · rw [renewal_users_char now plans gw { users := [A, C], txns := ts } hnd2]
    rfl

/-- Witness for C7 with users 1, 2, 3 and a gateway that throws for
user 2. -/
theorem renewal_sweep_per_user_isolation_witness :
    (processAutoRenewals now0 [planMonthly] gwW { users := [userA7, userB7, userC7], txns := [] }).users
      = [renewStep now0 [planMonthly] gwW userA7,
         { userB7 with subscriptionStatus := SubStatus.past_due },
         renewStep now0 [planMonthly] gwW userC7]
    ∧ (processAutoRenewals now0 [planMonthly] gwW { users := [userA7, userC7], txns := [] }).users
      = [renewStep now0 [planMonthly] gwW userA7, renewStep now0 [planMonthly] gwW userC7]
    ∧ ({ userB7 with subscriptionStatus := SubStatus.past_due }).isPro = true :=
  renewal_sweep_per_user_isolation now0 [planMonthly] gwW userA7 userB7 userC7 [] "gateway down"
    (by decide) (by decide) (by decide) (by decide) (by decide) rfl

/-! Invariant preservation machinery for claim C6. -/

theorem inv_updateUser (P : User → Prop) (db : DB) (uid : Nat) (f : User → User)
    (hP : ∀ u ∈ db.users, P u) (hf : ∀ u, P u → P (f u)) :
    ∀ u ∈ (updateUser db uid f).users, P u := by
  intro u hu
  simp only [updateUser, List.mem_map] at hu
  obtain ⟨v, hv, rfl⟩ := hu
  by_cases hb : (v.id == uid) = true
  · rw [if_pos hb]
    exact hf v (hP v hv)
  · rw [if_neg hb]
    exact hP v hv

theorem inv_foldl_updateUser (P : User → Prop) (g : User → User → User) (cs : List User)
    (hg : ∀ c ∈ cs, ∀ v, P v → P (g c v)) :
    ∀ db : DB, (∀ u ∈ db.users, P u) →
      ∀ u ∈ (cs.foldl (fun s c => updateUser s c.id (g c)) db).users, P u := by
  induction cs with
  | nil => intro db hP; exact hP
  | cons c cs ih =>
    intro db hP
    rw [List.foldl_cons]
    exact ih (fun c2 hc2 => hg c2 (List.mem_cons_of_mem c hc2)) (updateUser db c.id (g c))
      (inv_updateUser P db c.id (g c) hP (fun v hv => hg c (List.mem_cons_self c cs) v hv))

theorem retryGo_preserves (Q : DB → Prop) (act : DB → DB × Option String)
    (hact : ∀ s, Q s → Q (act s).1) :
    ∀ (g k : Nat) (db : DB), Q db → Q (retryGo act k g db).1 := by
  intro g
  induction g with
  | zero =>
    intro k db hQ
    cases hacts : act db with
    | mk db1 r =>
      have hQ1 : Q db1 := by
        have := hact db hQ
        rw [hacts] at this
        exact this
      cases r with
      | none => rw [retryGo_first_ok act k 0 db db1 hacts]; exact hQ1
      | some e => rw [retryGo_fail_zero act k db db1 e hacts]; exact hQ1
  | succ g ih =>
    intro k db hQ
    cases hacts : act db with
    | mk db1 r =>
      have hQ1 : Q db1 := by
        have := hact db hQ
        rw [hacts] at this
        exact this
      cases r with
      | none => rw [retryGo_first_ok act k (g + 1) db db1 hacts]; exact hQ1
      | some e =>
        rw [retryGo_fail_succ act k g db db1 e hacts]
        exact ih (k + 1) db1 hQ1

theorem subInv_activatePro (now ed : JSDate) (pid : Nat) (v : User) :
    subInvariant (activateProUser now ed pid v) := by
  intro _
  refine ⟨Or.inl ?_, Or.inl rfl⟩
  simp [activateProUser]

theorem subInv_subControllerActivate (now exp : JSDate) (pid : Nat) (a : Int)
    (r : Option String) (v : User) :
    subInvariant (subControllerActivate now exp pid a r v) := by
  intro _
  refine ⟨Or.inr ?_, Or.inl rfl⟩
  simp [subControllerActivate]

theorem psp_preserves_inv (now : JSDate) (d : ChargeData) (db : DB)
    (hP : ∀ u ∈ db.users, subInvariant u) :
    ∀ u ∈ (processSuccessfulPayment now db d).1.users, subInvariant u := by
  simp only [processSuccessfulPayment]
  cases ht : findTxnByRef db d.txRef with
  | none => simp only [ht]; exact hP
  | some txn =>
    simp only [ht]
    by_cases hs : txn.status = TxStatus.successful
    · rw [if_pos hs]; exact hP
    · rw [if_neg hs]
      by_cases hm : txn.amount ≠ d.amount ∨ txn.currency ≠ d.currency
      · rw [if_pos hm]; exact hP
      · rw [if_neg hm]
        have hP1 : ∀ u ∈ (updateTxnByRef db d.txRef (paidTxnUpd now d)).users,
            subInvariant u := hP
        cases hu : findUser (updateTxnByRef db d.txRef (paidTxnUpd now d)) txn.userId with
        | none => simp only [hu]; exact hP1
        | some user =>
          simp only [hu]
          cases htt : txn.txType with
          | course_enrollment =>
            simp only [htt]
            cases hc : txn.courseId with
            | none => simp only [hc]; exact hP1
            | some cid =>
              simp only [hc]
              by_cases hin : cid ∈ user.enrolledCourses
              · rw [if_pos hin]; exact hP1
              · rw [if_neg hin]
                exact inv_updateUser subInvariant _ user.id (enrollCourse cid) hP1
                  (fun v hv => hv)
          | subscription =>
            simp only [htt]
            cases hp : txn.subscriptionPlanId with
            | none => simp only [hp]; exact hP1
            | some pid =>
              simp only [hp]
              exact inv_updateUser subInvariant _ user.id (activateProUser now _ pid) hP1
                (fun v _hv => subInv_activatePro now _ pid v)
          | topup => simp only [htt]; exact hP1
          | deduction => simp only [htt]; exact hP1
          | earnings => simp only [htt]; exact hP1
          | refund => simp only [htt]; exact hP1
          | withdrawal => simp only [htt]; exact hP1

theorem handleFlw_preserves_inv (secret : Option String) (now : JSDate) (db : DB)
    (req : FlwRequest) (hP : ∀ u ∈ db.users, subInvariant u) :
    ∀ u ∈ (handleFlutterwaveWebhook secret now db req).1.users, subInvariant u := by
  cases hsg : req.signature with
  | none => simp only [handleFlutterwaveWebhook, hsg]; exact hP
  | some sig =>
    simp only [handleFlutterwaveWebhook, hsg]
    by_cases hv : verifyFlutterwaveSignature secret sig = false
    · rw [if_pos hv]; exact hP
    · rw [if_neg hv]
      by_cases hev : (req.event == "charge.completed") = true
      · rw [if_pos hev]
        by_cases hst : (req.data.status == "successful") = true
        · rw [if_pos hst]
          have hret : ∀ u ∈ (retryGo (fun s => processSuccessfulPayment now s req.data)
              0 MAX_RETRIES db).1.users, subInvariant u :=
            retryGo_preserves (fun s => ∀ u ∈ s.users, subInvariant u)
              (fun s => processSuccessfulPayment now s req.data)
              (fun s hs => psp_preserves_inv now req.data s hs) MAX_RETRIES 0 db hP
          cases hr : (retryGo (fun s => processSuccessfulPayment now s req.data)
              0 MAX_RETRIES db).2.1 with
          | none => simp only [hr]; exact hret
          | some e => simp only [hr]; exact hret
        · rw [if_neg hst]
          cases htx : findTxnByRef db req.data.txRef with
          | none => simp only [htx]; exact hP
          | some t =>
            simp only [htx]
            cases hps : parseTxStatus req.data.status with
            | some st => simp only [hps]; exact hP
            | none => simp only [hps]; exact hP
      · rw [if_neg hev]; exact hP

theorem handleCharge_preserves_inv (now : JSDate) (plans : List Plan) (db : DB)
    (d : SubChargeData) (hP : ∀ u ∈ db.users, subInvariant u) :
    ∀ u ∈ (handleChargeCompleted now plans db d).users, subInvariant u := by
  by_cases hst : d.status ≠ "successful"
  · simp only [handleChargeCompleted]
    rw [if_pos hst]
    exact hP
  · simp only [handleChargeCompleted]
    rw [if_neg hst]
    cases hmu : d.meta.userId with
    | none => cases hmp : d.meta.planId <;> simp only [hmu, hmp] <;> exact hP
    | some uid =>
      cases hmp : d.meta.planId with
      | none => simp only [hmu, hmp]; exact hP
      | some pid =>
        simp only [hmu, hmp]
        cases hfu : findUser db uid with
        | none => simp only [hfu]; exact hP
        | some user =>
          simp only [hfu]
          by_cases href : (user.lastPaymentReference == some d.txRef) = true
          · rw [if_pos href]; exact hP
          · rw [if_neg href]
            cases hfp : findPlan plans pid with
            | none => simp only [hfp]; exact hP
            | some plan =>
              simp only [hfp]
              exact inv_updateUser subInvariant db uid _ hP
                (fun v _ => subInv_subControllerActivate now _ pid d.amount (some d.txRef) v)

theorem verifySub_preserves_inv (now : JSDate) (plans : List Plan) (db : DB)
    (uid : Nat) (tRef tId : Option String) (hP : ∀ u ∈ db.users, subInvariant u) :
    ∀ u ∈ (verifySubscription now plans db uid tRef tId).1.users, subInvariant u := by
  by_cases h1 : tRef = none ∧ tId = none
  · simp only [verifySubscription]
    rw [if_pos h1]
    exact hP
  · simp only [verifySubscription]
    rw [if_neg h1]
    cases hfu : findUser db uid with
    | none => simp only [hfu]; exact hP
    | some user =>
      simp only [hfu]
      by_cases h2 : tRef ≠ none ∧ user.pendingSubscriptionTransaction ≠ tRef
      · rw [if_pos h2]; exact hP
      · rw [if_neg h2]
        cases hb : user.pendingSubscriptionPlan.bind (findPlan plans) with
        | none => simp only [hb]; exact hP
        | some plan =>
          simp only [hb]
          exact inv_updateUser subInvariant db uid _ hP
            (fun v _ => subInv_subControllerActivate now _ plan.id 2999 tRef v)

theorem cancel_preserves_inv (db : DB) (uid : Nat)
    (hP : ∀ u ∈ db.users, subInvariant u) :
    ∀ u ∈ (cancelSubscription db uid).1.users, subInvariant u := by
  simp only [cancelSubscription]
  cases hfu : findUser db uid with
  | none => simp only [hfu]; exact hP
  | some user =>
    simp only [hfu]
    by_cases hc : user.isPro = false ∨ user.subscriptionExpiresAt = none
    · rw [if_pos hc]; exact hP
    · rw [if_neg hc]
      refine inv_updateUser subInvariant db uid _ hP ?_
      intro v hv hpro
      exact ⟨(hv hpro).1, Or.inr (Or.inr rfl)⟩

theorem expiry_preserves_inv (now : JSDate) (db : DB)
    (hP : ∀ u ∈ db.users, subInvariant u) :
    ∀ u ∈ (checkExpiredSubscriptions now db).users, subInvariant u := by
  unfold checkExpiredSubscriptions
  refine inv_foldl_updateUser subInvariant (fun _c w => expireApply now w) _ ?_ db hP
  intro c _hc v _hPv hpro
  exact absurd hpro (by simp [expireApply])

theorem attemptOutcome_extended_some (now : JSDate) (plans : List Plan)
    (gw : Nat → Except String Bool) (c : User) (e : Option JSDate)
    (hcand : renewalCandidate now c = true)
    (ho : attemptOutcome plans gw c = RenewOutcome.extended e) : e ≠ none := by
  have hend : c.subscriptionEndDate ≠ none := by
    unfold renewalCandidate at hcand
    cases hce : c.subscriptionEndDate with
    | some d0 => simp
    | none =>
      rw [hce] at hcand
      simp at hcand
  cases hpl : c.subscriptionPlan.bind (findPlan plans) with
  | none =>
    simp only [attemptOutcome, hpl] at ho
    simp at ho
  | some plan =>
    simp only [attemptOutcome, hpl] at ho
    by_cases hpm : c.hasPaymentMethod = false
    · rw [if_pos hpm] at ho; simp at ho
    · rw [if_neg hpm] at ho
      by_cases hpr : plan.price ≤ 0
      · rw [if_pos hpr] at ho; simp at ho
      · rw [if_neg hpr] at ho
        cases hgw : gw c.id with
        | error e2 => simp only [hgw] at ho; simp at ho
        | ok b =>
          cases b with
          | false => simp only [hgw] at ho; simp at ho
          | true =>
            simp only [hgw] at ho
            injection ho with he2
            rw [← he2]
            cases hce : c.subscriptionEndDate with
            | none => exact absurd hce hend
            | some d0 => simp

theorem renewal_preserves_inv (now : JSDate) (plans : List Plan)
    (gw : Nat → Except String Bool) (db : DB)
    (hP : ∀ u ∈ db.users, subInvariant u) :
    ∀ u ∈ (processAutoRenewals now plans gw db).users, subInvariant u := by
  unfold processAutoRenewals
  refine inv_foldl_updateUser subInvariant
    (fun c => applyOutcome (attemptOutcome plans gw c)) _ ?_ db hP
  intro c hc v hPv
  have hcand : renewalCandidate now c = true := (List.mem_filter.mp hc).2
  have hgoal : subInvariant (applyOutcome (attemptOutcome plans gw c) v) := by
    cases ho : attemptOutcome plans gw c with
    | pastDue =>
      intro hpro
      exact ⟨(hPv hpro).1, Or.inr (Or.inl rfl)⟩
    | extended e =>
      have he : e ≠ none := attemptOutcome_extended_some now plans gw c e hcand ho
      intro _hpro
      exact ⟨Or.inl he, Or.inl rfl⟩
  exact hgoal

theorem markPastDue_preserves_inv (db : DB) (uid : Nat)
    (hP : ∀ u ∈ db.users, subInvariant u) :
    ∀ u ∈ (markSubscriptionAsPastDue db uid).users, subInvariant u := by
  unfold markSubscriptionAsPastDue
  refine inv_updateUser subInvariant db uid _ hP ?_
  intro v hv hpro
  exact ⟨(hv hpro).1, Or.inr (Or.inl rfl)⟩

/-- Counterexample to C6 as stated: cancelling an active subscription
keeps `isPro = true` but sets the status to `cancelled`, which is
outside the claimed set of active and past_due; moreover the
subscription-controller webhook activation stores the expiry under
`subscriptionExpiresAt` and leaves `subscriptionEndDate` unset, so the
claimed "subscriptionEndDate is set" clause also fails on that path. -/
theorem cancelSubscription_breaks_claimed_invariant :
    (cancelSubscription dbC6 1).2 = 200
    ∧ (findUser (cancelSubscription dbC6 1).1 1).map User.isPro = some true
    ∧ (findUser (cancelSubscription dbC6 1).1 1).map User.subscriptionStatus
        = some SubStatus.cancelled
    ∧ (SubStatus.cancelled ≠ SubStatus.active ∧ SubStatus.cancelled ≠ SubStatus.past_due)
    ∧ (findUser (handleChargeCompleted now0 [planMonthly] dbOneUser subDataC2) 1).map
        User.isPro = some true
    ∧ (findUser (handleChargeCompleted now0 [planMonthly] dbOneUser subDataC2) 1).map
        User.subscriptionEndDate = some none := by
  decide

/-- C6 (amended): every operation of the subscription core (payments
webhook, subscription webhook activation, client-driven verification,
cancellation, expiry sweep, renewal sweep, mark-past-due) preserves the
invariant that a Pro user carries an end/expiry timestamp
(`subscriptionEndDate` or `subscriptionExpiresAt`, depending on the
path) and a status among active, past_due and cancelled. -/
theorem subscription_ops_preserve_invariant :
    (∀ (secret : Option String) (now : JSDate) (db : DB) (req : FlwRequest),
        (∀ u ∈ db.users, subInvariant u) →
        ∀ u ∈ (handleFlutterwaveWebhook secret now db req).1.users, subInvariant u)
    ∧ (∀ (now : JSDate) (plans : List Plan) (db : DB) (d : SubChargeData),
        (∀ u ∈ db.users, subInvariant u) →
        ∀ u ∈ (handleChargeCompleted now plans db d).users, subInvariant u)
    ∧ (∀ (now : JSDate) (plans : List Plan) (db : DB) (uid : Nat) (tRef tId : Option String),
        (∀ u ∈ db.users, subInvariant u) →
        ∀ u ∈ (verifySubscription now plans db uid tRef tId).1.users, subInvariant u)
    ∧ (∀ (db : DB) (uid : Nat),
        (∀ u ∈ db.users, subInvariant u) →
        ∀ u ∈ (cancelSubscription db uid).1.users, subInvariant u)
    ∧ (∀ (now : JSDate) (db : DB),
        (∀ u ∈ db.users, subInvariant u) →
        ∀ u ∈ (checkExpiredSubscriptions now db).users, subInvariant u)
    ∧ (∀ (now : JSDate) (plans : List Plan) (gw : Nat → Except String Bool) (db : DB),
        (∀ u ∈ db.users, subInvariant u) →
        ∀ u ∈ (processAutoRenewals now plans gw db).users, subInvariant u)
    ∧ (∀ (db : DB) (uid : Nat),
        (∀ u ∈ db.users, subInvariant u) →
        ∀ u ∈ (markSubscriptionAsPastDue db uid).users, subInvariant u) :=
  ⟨handleFlw_preserves_inv, handleCharge_preserves_inv, verifySub_preserves_inv,
   cancel_preserves_inv, expiry_preserves_inv, renewal_preserves_inv,
   markPastDue_preserves_inv⟩

/-- Witness for the amended C6: cancellation on a concrete store keeps
the invariant. -/
theorem subscription_ops_preserve_invariant_witness :
    ∀ u ∈ (cancelSubscription dbC6 1).1.users, subInvariant u :=
  subscription_ops_preserve_invariant.2.2.2.1 dbC6 1 (by decide)

end SkillSwap
